import Mathlib

/-! kpack: build provenance decoding (`pkg/cnb/cnb_metadata.go`), blob fetching
(`pkg/blob/fetch.go`) and the generated copy of builder records
(`pkg/apis/build/v1alpha2/zz_generated.deepcopy.go`).

A shallow embedding of `readBuiltImage`, `RemoteMetadataRetriever.GetBuiltImage`
and `RemoteMetadataRetriever.GetCacheImage`; of `Fetcher.Fetch`, `downloadBlob`
and `classifyFile`; and of `BuilderRecord.DeepCopy`.

Conventions of the embedding.

* A Go result pair `(T, error)` is a Lean pair `T × Option Error`; `none` is the
  nil error.  Both components are kept, so that what a function returns next to
  a non-nil error can be stated.
* A Go slice is `Slice α := Option (List α)`; `none` is the nil slice.
* The two collaborators of the retriever (keychain factory, image fetcher) are
  functions; every call made to them is recorded, in order, in `Run.calls`.
* A run-time panic (index out of range, nil dereference) is `Run.result = none`.
* Library functions whose text is not part of the package (JSON decoding,
  reference parsing) are fields of `Lib`; the general theorems hold for every
  `Lib`.  `name.ParseReference` below is a model of the reference parser of
  go-containerregistry, used for the concrete instances.
* What `Fetch` does to the outside (the request, the transient file, the
  extractor calls, the log line) is recorded, in order, in `FetchResult.events`;
  `FetchResult.files` lists the transient files that exist when it returns.  The
  network, the temporary directory and package `archive` are fields of `Env`.
* `http.DetectContentType` is a model of the sniffing function of `net/http`.
* The pointers of `BuilderRecord.DeepCopy` are addresses of a `Heap`, where
  `new` and `make` allocate at the next free address; a record holds its slices
  as headers (backing array and length).  `OrderEntry.DeepCopyInto`, declared in
  package `core/v1alpha1`, is a parameter: the entry it leaves in the target.
-/

namespace Kpack

set_option maxRecDepth 100000

/-! ## Errors -/

/-- Go `error` values: a message, possibly wrapping a cause (`errors.Wrap`). -/
inductive Error where
  | new (msg : String)
  | wrap (cause : Error) (msg : String)
deriving DecidableEq, Repr

instance instDecidableEqExcept {ε α : Type} [DecidableEq ε] [DecidableEq α] :
    DecidableEq (Except ε α)
  | .ok a, .ok b => if h : a = b then isTrue (by rw [h]) else isFalse (by intro h2; cases h2; exact h rfl)
  | .error a, .error b =>
    if h : a = b then isTrue (by rw [h]) else isFalse (by intro h2; cases h2; exact h rfl)
  | .ok _, .error _ => isFalse (by intro h; cases h)
  | .error _, .ok _ => isFalse (by intro h; cases h)

/-- Go slices: `none` is the nil slice, `some []` the empty non-nil one. -/
abbrev Slice (α : Type) := Option (List α)

/-- `errors.Wrap(err, message)` of github.com/pkg/errors for a non-nil `err`. -/
def errors.Wrap (err : Error) (message : String) : Error :=
  Error.wrap err message

/-- `errors.Errorf` of github.com/pkg/errors with the message already formatted. -/
def errors.Errorf (message : String) : Error :=
  Error.new message

/-! ## Time -/

/-- A `time.Time` instant, in nanoseconds counted from the zero instant `time.Time{}`. -/
structure Time where
  nanos : Int
deriving DecidableEq, Repr

/-- The zero value `time.Time{}`. -/
def Time.zero : Time := ⟨0⟩

/-! ## Images and labels -/

/-- The part of `ggcrv1.ConfigFile` that is read: the creation time and `Config.Labels`. -/
structure ConfigFile where
  Created : Time
  Labels : List (String × String)
deriving DecidableEq, Repr

/-- A `ggcrv1.Image`: the outcome of its `ConfigFile()` method. -/
structure Image where
  ConfigFile : Except Error ConfigFile
deriving DecidableEq, Repr

/-- `platform.StackIDLabel` of the buildpacks lifecycle. -/
def platform.StackIDLabel : String := "io.buildpacks.stack.id"

/-- `platform.BuildMetadataLabel` of the buildpacks lifecycle. -/
def platform.BuildMetadataLabel : String := "io.buildpacks.build.metadata"

/-- `platform.LayerMetadataLabel` of the buildpacks lifecycle. -/
def platform.LayerMetadataLabel : String := "io.buildpacks.lifecycle.metadata"

/-- The constant `BuilderMetadataLabel` of package cnb. -/
def BuilderMetadataLabel : String := "io.buildpacks.builder.metadata"

/-- Modelled from the spec: `imagehelpers.GetStringLabel` (package
`pkg/registry/imagehelpers` is not among the sources).  A label is a string
stored under a key of the image configuration; an unreadable configuration or
an absent key is an error. -/
def imagehelpers.GetStringLabel (image : Image) (key : String) : Except Error String :=
  match image.ConfigFile with
  | .error err => .error err
  | .ok cfg =>
    match cfg.Labels.lookup key with
    | none => .error (errors.Errorf ("could not find label " ++ key))
    | some stringValue => .ok stringValue

/-- Modelled from the spec: `imagehelpers.GetLabel` (package
`pkg/registry/imagehelpers` is not among the sources).  The label is read as a
string and decoded as a JSON document by `unmarshal`; either step may fail. -/
def imagehelpers.GetLabel {α : Type} (unmarshal : String → Except Error α)
    (image : Image) (key : String) : Except Error α :=
  match imagehelpers.GetStringLabel image key with
  | .error err => .error err
  | .ok stringValue => unmarshal stringValue

/-- Modelled from the spec: `imagehelpers.GetCreatedAt` (package
`pkg/registry/imagehelpers` is not among the sources).  The creation timestamp
of the image configuration; an unreadable configuration is an error. -/
def imagehelpers.GetCreatedAt (image : Image) : Except Error Time :=
  match image.ConfigFile with
  | .error err => .error err
  | .ok cfg => .ok cfg.Created

/-! ## Decoded label documents -/

/-- The type `lifecyclebuildpack.GroupBuildpack`: id, version and homepage of a buildpack. -/
structure GroupBuildpack where
  ID : String
  Version : String
  Homepage : String
deriving DecidableEq, Repr

/-- The field of `platform.BuildMetadata` that is read: the buildpack list. -/
structure BuildMetadata where
  Buildpacks : Slice GroupBuildpack
deriving DecidableEq, Repr

/-- The type `runImageAppMetadata`. -/
structure runImageAppMetadata where
  TopLayer : String
  Reference : String
deriving DecidableEq, Repr

/-- The field of the run-image entry of `StackMetadata` that is read: `Image`. -/
structure RunImageMetadata where
  Image : String
deriving DecidableEq, Repr

/-- The type `StackMetadata` of package cnb. -/
structure StackMetadata where
  RunImage : RunImageMetadata
deriving DecidableEq, Repr

/-- The type `appLayersMetadata`. -/
structure appLayersMetadata where
  RunImage : runImageAppMetadata
  Stack : StackMetadata
deriving DecidableEq, Repr

/-! ## Image references (go-containerregistry, package `name`) -/

/-- The type `name.Registry`. -/
structure Registry where
  registry : String
deriving DecidableEq, Repr

/-- The type `name.Repository`. -/
structure Repository where
  Registry : Registry
  repository : String
deriving DecidableEq, Repr

/-- The type `name.Tag`: a repository and a tag. -/
structure Tag where
  Repository : Repository
  tag : String
deriving DecidableEq, Repr

/-- The type `name.Digest`: a repository and a digest. -/
structure Digest where
  Repository : Repository
  digest : String
deriving DecidableEq, Repr

/-- The interface `name.Reference`: its two implementations. -/
inductive Reference where
  | tag (t : Tag)
  | digest (d : Digest)
deriving DecidableEq, Repr

/-- The constant `name.DefaultRegistry`. -/
def name.DefaultRegistry : String := "index.docker.io"

/-- The method `Registry.RegistryStr`. -/
def Registry.RegistryStr (r : Registry) : String :=
  if r.registry ≠ "" then r.registry else name.DefaultRegistry

/-- The method `Registry.Name`. -/
def Registry.Name (r : Registry) : String := r.RegistryStr

/-- The function `hasImplicitNamespace` of package name. -/
def name.hasImplicitNamespace (repo : String) (reg : Registry) : Bool :=
  !(repo.toList.contains '/') && decide (reg.RegistryStr = name.DefaultRegistry)

/-- The method `Repository.RepositoryStr`. -/
def Repository.RepositoryStr (r : Repository) : String :=
  if name.hasImplicitNamespace r.repository r.Registry then
    "library" ++ "/" ++ r.repository
  else r.repository

/-- The method `Repository.Name`. -/
def Repository.Name (r : Repository) : String :=
  let regName := r.Registry.Name
  if regName ≠ "" then regName ++ "/" ++ r.RepositoryStr else r.RepositoryStr

/-- The method `Repository.String`. -/
def Repository.String (r : Repository) : String := r.Name

/-- The method `Reference.Context`. -/
def Reference.Context : Reference → Repository
  | .tag t => t.Repository
  | .digest d => d.Repository

/-- The method `Reference.Identifier`: the tag of a tag reference, the digest of
a digest reference. -/
def Reference.Identifier : Reference → String
  | .tag t => t.tag
  | .digest d => d.digest

/-! ## Library functions taken as parameters -/

/-- The library functions `readBuiltImage` relies on: `json.Unmarshal` at the
two document types, and `name.ParseReference`. -/
structure Lib where
  unmarshalBuildMetadata : String → Except Error BuildMetadata
  unmarshalLayersMetadata : String → Except Error appLayersMetadata
  ParseReference : String → Except Error Reference

/-! ## The built-image record -/

/-- The type `BuiltImageStack`. -/
structure BuiltImageStack where
  RunImage : String
  ID : String
deriving DecidableEq, Repr

/-- The type `BuiltImage`. -/
structure BuiltImage where
  Identifier : String
  CompletedAt : Time
  BuildpackMetadata : Slice GroupBuildpack
  Stack : BuiltImageStack
deriving DecidableEq, Repr

/-- The zero value `BuiltImage{}`. -/
def BuiltImage.zero : BuiltImage :=
  { Identifier := "", CompletedAt := Time.zero, BuildpackMetadata := none,
    Stack := { RunImage := "", ID := "" } }

/-- The function `readBuiltImage` of `cnb_metadata.go`. -/
def readBuiltImage (lib : Lib) (appImage : Image) (appImageId : String) :
    BuiltImage × Option Error :=
  match imagehelpers.GetStringLabel appImage platform.StackIDLabel with
  | .error _ => (BuiltImage.zero, none)
  | .ok stackId =>
    match imagehelpers.GetLabel lib.unmarshalBuildMetadata appImage platform.BuildMetadataLabel with
    | .error err => (BuiltImage.zero, some err)
    | .ok buildMetadata =>
      match imagehelpers.GetLabel lib.unmarshalLayersMetadata appImage
          platform.LayerMetadataLabel with
      | .error err => (BuiltImage.zero, some err)
      | .ok layerMetadata =>
        match imagehelpers.GetCreatedAt appImage with
        | .error err => (BuiltImage.zero, some err)
        | .ok imageCreatedAt =>
          match lib.ParseReference layerMetadata.RunImage.Reference with
          | .error err => (BuiltImage.zero, some err)
          | .ok runImageRef =>
            match lib.ParseReference layerMetadata.Stack.RunImage.Image with
            | .error err => (BuiltImage.zero, some err)
            | .ok baseImageRef =>
              ({ Identifier := appImageId,
                 CompletedAt := imageCreatedAt,
                 BuildpackMetadata := buildMetadata.Buildpacks,
                 Stack := { RunImage := baseImageRef.Context.String ++ "@" ++ runImageRef.Identifier,
                            ID := stackId } }, none)

/-! ## A model of `name.ParseReference`

The reference parser of go-containerregistry under its default options (weak
validation, default tag `latest`, default registry `index.docker.io`).  Strings
are handled as lists of runes. -/

/-- `strings.Split(s, sep)` for a separator of one rune. -/
def strings.Split (sep : Char) : List Char → List (List Char)
  | [] => [[]]
  | c :: cs =>
    if c = sep then [] :: strings.Split sep cs
    else
      match strings.Split sep cs with
      | [] => [[c]]
      | p :: ps => (c :: p) :: ps

/-- `strings.SplitN(s, sep, 2)` for a separator of one rune: the part before the
first separator and, when there is a separator, the part after it. -/
def strings.SplitN2 (sep : Char) : List Char → List Char × Option (List Char)
  | [] => ([], none)
  | c :: cs =>
    if c = sep then ([], some cs)
    else
      match strings.SplitN2 sep cs with
      | (p, rest) => (c :: p, rest)

/-- `strings.Join(parts, sep)` for a separator of one rune. -/
def strings.Join (sep : Char) : List (List Char) → List Char
  | [] => []
  | [p] => p
  | p :: q :: ps => p ++ sep :: strings.Join sep (q :: ps)

/-- The function `checkElement` of package name: a length window in runes and a
set of allowed runes. -/
def name.checkElement (what : String) (element allowedRunes : List Char)
    (minRunes maxRunes : Nat) : Option Error :=
  let numRunes := element.length
  if numRunes < minRunes ∨ maxRunes < numRunes then
    some (Error.new (what ++ " must be between " ++ toString minRunes ++ " and " ++
      toString maxRunes ++ " runes in length: " ++ String.mk element))
  else if (element.filter (fun r => !(allowedRunes.contains r))).length ≠ 0 then
    some (Error.new (what ++ " can only contain the runes " ++ String.mk allowedRunes ++
      ": " ++ String.mk element))
  else none

/-- The constant `tagChars`. -/
def name.tagChars : List Char :=
  "abcdefghijklmnopqrstuvwxyzABCDEFGHIJKLMNOPQRSTUVWXYZ0123456789_-.".toList

/-- The constant `digestChars`. -/
def name.digestChars : List Char := "sh:0123456789abcdef".toList

/-- The constant `repositoryChars`. -/
def name.repositoryChars : List Char := "abcdefghijklmnopqrstuvwxyz0123456789_-./".toList

/-- The function `checkTag`. -/
def name.checkTag (nm : List Char) : Option Error :=
  name.checkElement "tag" nm name.tagChars 1 128

/-- The function `checkDigest`: the form `sha256:` followed by 64 hexadecimal digits. -/
def name.checkDigest (nm : List Char) : Option Error :=
  name.checkElement "digest" nm name.digestChars (7 + 64) (7 + 64)

/-- The function `checkRepository`. -/
def name.checkRepository (repository : List Char) : Option Error :=
  name.checkElement "repository" repository name.repositoryChars 2 255

/-- Runes accepted in a registry host by this model. -/
def name.hostChars : List Char :=
  "abcdefghijklmnopqrstuvwxyzABCDEFGHIJKLMNOPQRSTUVWXYZ0123456789-_.~".toList

/-- The function `checkRegistry`: the name must be the host of the URL `//name`.
The library decides this with `url.Parse`; the model accepts a host made of
letters, digits and `-_.~`, optionally followed by `:` and a decimal port, and
rejects every other name (some of which the library accepts, such as IPv6
literals). -/
def name.checkRegistry (nm : List Char) : Option Error :=
  let (host, port) := strings.SplitN2 ':' nm
  let portOk := match port with
    | none => true
    | some ds => ds.all Char.isDigit
  if host.all (fun r => name.hostChars.contains r) && portOk then none
  else some (Error.new ("registries must be valid RFC 3986 URI authorities: " ++ String.mk nm))

/-- The function `NewRegistry` (weak validation). -/
def name.NewRegistry (nm : List Char) : Except Error Registry :=
  match name.checkRegistry nm with
  | some err => .error err
  | none =>
    if String.mk nm = "docker.io" then .ok { registry := name.DefaultRegistry }
    else .ok { registry := String.mk nm }

/-- The function `NewRepository` (weak validation). -/
def name.NewRepository (nm : List Char) : Except Error Repository :=
  if nm.length = 0 then .error (Error.new "a repository name must be specified")
  else
    let regRepo : List Char × List Char :=
      match strings.SplitN2 '/' nm with
      | (p0, some p1) => if p0.contains '.' || p0.contains ':' then (p0, p1) else ([], nm)
      | (_, none) => ([], nm)
    match name.checkRepository regRepo.2 with
    | some err => .error err
    | none =>
      match name.NewRegistry regRepo.1 with
      | .error err => .error err
      | .ok reg => .ok { Registry := reg, repository := String.mk regRepo.2 }

/-- The function `NewTag` (weak validation, default tag `latest`). -/
def name.NewTag (nm : List Char) : Except Error Tag :=
  let parts := strings.Split ':' nm
  let baseTag : List Char × List Char :=
    if 1 < parts.length && !((parts.getLastD []).contains '/') then
      (strings.Join ':' parts.dropLast, parts.getLastD [])
    else (nm, [])
  let checked : Option Error := if baseTag.2 ≠ [] then name.checkTag baseTag.2 else none
  match checked with
  | some err => .error err
  | none =>
    let tag : List Char := if baseTag.2 = [] then "latest".toList else baseTag.2
    match name.NewRepository baseTag.1 with
    | .error err => .error err
    | .ok repo => .ok { Repository := repo, tag := String.mk tag }

/-- The function `NewDigest` (weak validation). -/
def name.NewDigest (nm : List Char) : Except Error Digest :=
  match strings.Split '@' nm with
  | [base, digest] =>
    match name.checkDigest digest with
    | some err => .error err
    | none =>
      let base2 : List Char :=
        match name.NewTag base with
        | .ok tag => tag.Repository.Name.toList
        | .error _ => base
      match name.NewRepository base2 with
      | .error err => .error err
      | .ok repo => .ok { Repository := repo, digest := String.mk digest }
  | _ => .error (Error.new ("a digest must contain exactly one '@' separator " ++
      "(e.g. registry/repository@digest) saw: " ++ String.mk nm))

/-- The function `name.ParseReference`: a tag reference when the string parses
as one, else a digest reference when it parses as one, else an error. -/
def name.ParseReference (s : String) : Except Error Reference :=
  match name.NewTag s.toList with
  | .ok t => .ok (Reference.tag t)
  | .error _ =>
    match name.NewDigest s.toList with
    | .ok d => .ok (Reference.digest d)
    | .error _ => .error (Error.new ("could not parse reference: " ++ s))

/-! ## Builds -/

/-- The type `registry.SecretRef`: the identity a keychain is resolved for. -/
structure SecretRef where
  ServiceAccount : String
  Namespace : String
deriving DecidableEq, Repr

/-- An `authn.Keychain`, identified by a token. -/
structure Keychain where
  ident : String
deriving DecidableEq, Repr

/-- The type `BuildPersistentVolumeCache`. -/
structure BuildPersistentVolumeCache where
  ClaimName : String
deriving DecidableEq, Repr

/-- The type `RegistryCache`. -/
structure RegistryCache where
  Tag : String
deriving DecidableEq, Repr

/-- The type `BuildCacheConfig`: two optional cache descriptors (nil pointers are `none`). -/
structure BuildCacheConfig where
  Volume : Option BuildPersistentVolumeCache
  Registry : Option RegistryCache
deriving DecidableEq, Repr

/-- The fields of `BuildSpec` that the retriever reads. -/
structure BuildSpec where
  Tags : Slice String
  ServiceAccountName : String
  Cache : Option BuildCacheConfig
deriving DecidableEq, Repr

/-- The fields of `Build` that the retriever reads: the namespace of its object
metadata and its spec. -/
structure Build where
  Namespace : String
  Spec : BuildSpec
deriving DecidableEq, Repr

/-- Modelled from the spec: the method `Build.Tag` (declared in
`build_types.go`, which is not among the sources).  The destination tag of the
build, the first entry of `Spec.Tags`; `none` when there is no entry, where
indexing the slice panics. -/
def Build.Tag (b : Build) : Option String :=
  match b.Spec.Tags with
  | some (t :: _) => some t
  | _ => none

/-- Modelled from the spec: the method `BuildSpec.NeedRegistryCache` (declared
in `build_types.go`, which is not among the sources).  A registry cache is
needed exactly when the cache configuration is present and carries a registry
cache descriptor. -/
def BuildSpec.NeedRegistryCache (bs : BuildSpec) : Bool :=
  match bs.Cache with
  | none => false
  | some c => c.Registry.isSome

/-! ## The retriever -/

/-- A call made to a collaborator of the retriever. -/
inductive Call where
  | KeychainForSecretRef (ref : SecretRef)
  | Fetch (keychain : Keychain) (repoName : String)
deriving DecidableEq, Repr

/-- The outcome of running a method of the retriever: the calls made to the
collaborators, in order, and the values returned (`none` after a panic). -/
structure Run (α : Type) where
  calls : List Call
  result : Option α
deriving DecidableEq, Repr

/-- The type `RemoteMetadataRetriever`: `KeychainFactory.KeychainForSecretRef`
and `ImageFetcher.Fetch` as functions (the context argument is passed through
untouched and left out). -/
structure RemoteMetadataRetriever where
  KeychainFactory : SecretRef → Except Error Keychain
  ImageFetcher : Keychain → String → Except Error (Image × String)

/-- The method `RemoteMetadataRetriever.GetBuiltImage`. -/
def RemoteMetadataRetriever.GetBuiltImage (lib : Lib) (r : RemoteMetadataRetriever)
    (build : Build) : Run (BuiltImage × Option Error) :=
  let ref : SecretRef :=
    { ServiceAccount := build.Spec.ServiceAccountName, Namespace := build.Namespace }
  match r.KeychainFactory ref with
  | .error err =>
    { calls := [Call.KeychainForSecretRef ref],
      result := some (BuiltImage.zero, some (errors.Wrap err "unable to create app image keychain")) }
  | .ok keychain =>
    match build.Tag with
    | none => { calls := [Call.KeychainForSecretRef ref], result := none }
    | some tag =>
      match r.ImageFetcher keychain tag with
      | .error err =>
        { calls := [Call.KeychainForSecretRef ref, Call.Fetch keychain tag],
          result := some (BuiltImage.zero, some (errors.Wrap err "unable to fetch app image")) }
      | .ok (appImage, appImageId) =>
        { calls := [Call.KeychainForSecretRef ref, Call.Fetch keychain tag],
          result := some (readBuiltImage lib appImage appImageId) }

/-- The method `RemoteMetadataRetriever.GetCacheImage`. -/
def RemoteMetadataRetriever.GetCacheImage (r : RemoteMetadataRetriever)
    (build : Build) : Run (String × Option Error) :=
  if !build.Spec.NeedRegistryCache then
    { calls := [], result := some ("", none) }
  else
    let ref : SecretRef :=
      { ServiceAccount := build.Spec.ServiceAccountName, Namespace := build.Namespace }
    match r.KeychainFactory ref with
    | .error err => { calls := [Call.KeychainForSecretRef ref], result := some ("", some err) }
    | .ok keychain =>
      match build.Spec.Cache.bind (fun c => c.Registry) with
      | none => { calls := [Call.KeychainForSecretRef ref], result := none }
      | some registryCache =>
        match r.ImageFetcher keychain registryCache.Tag with
        | .error err =>
          { calls := [Call.KeychainForSecretRef ref, Call.Fetch keychain registryCache.Tag],
            result := some ("", some (errors.Wrap err "unable to fetch cache image")) }
        | .ok (_, cacheImageId) =>
          { calls := [Call.KeychainForSecretRef ref, Call.Fetch keychain registryCache.Tag],
            result := some (cacheImageId, none) }

/-! ## Sample data

Concrete images and builds on which the definitions are evaluated. -/

/-- A build-metadata document listing two buildpacks. -/
def sampleBuildDoc : String :=
  "\x7b\"buildpacks\":[\x7b\"id\":\"paketo/go\",\"version\":\"1.2.3\",\"homepage\":\"https://paketo.io\"\x7d,\x7b\"id\":\"paketo/ca\",\"version\":\"3.0.1\",\"homepage\":\"\"\x7d]\x7d"

/-- The buildpack list of `sampleBuildDoc`. -/
def sampleBuildMetadata : BuildMetadata :=
  { Buildpacks := some [⟨"paketo/go", "1.2.3", "https://paketo.io"⟩, ⟨"paketo/ca", "3.0.1", ""⟩] }

/-- The digest reference of the sample run image. -/
def sampleRunImageDigestRef : String :=
  "myregistry.io/run@sha256:0123456789abcdef0123456789abcdef0123456789abcdef0123456789abcdef"

/-- A layer-metadata document whose run-image reference is a digest reference. -/
def sampleLayersDoc : String :=
  "\x7b\"runImage\":\x7b\"topLayer\":\"sha256:aa\",\"reference\":\"myregistry.io/run@sha256:0123456789abcdef0123456789abcdef0123456789abcdef0123456789abcdef\"\x7d,\"stack\":\x7b\"runImage\":\x7b\"image\":\"myregistry.io/run\"\x7d\x7d\x7d"

/-- The content of `sampleLayersDoc`. -/
def sampleLayersMetadata : appLayersMetadata :=
  { RunImage := { TopLayer := "sha256:aa", Reference := sampleRunImageDigestRef },
    Stack := { RunImage := { Image := "myregistry.io/run" } } }

/-- A layer-metadata document whose run-image reference is a tag reference. -/
def sampleTagLayersDoc : String :=
  "\x7b\"runImage\":\x7b\"topLayer\":\"sha256:aa\",\"reference\":\"myregistry.io/run:latest\"\x7d,\"stack\":\x7b\"runImage\":\x7b\"image\":\"myregistry.io/run\"\x7d\x7d\x7d"

/-- The content of `sampleTagLayersDoc`. -/
def sampleTagLayersMetadata : appLayersMetadata :=
  { RunImage := { TopLayer := "sha256:aa", Reference := "myregistry.io/run:latest" },
    Stack := { RunImage := { Image := "myregistry.io/run" } } }

/-- A library instance for the samples: the decoders agree with `json.Unmarshal`
on the sample documents and reject every other string; references are parsed
by the model of `name.ParseReference`. -/
def sampleLib : Lib :=
  { unmarshalBuildMetadata := fun s =>
      if s = sampleBuildDoc then .ok sampleBuildMetadata
      else .error (Error.new "invalid character looking for beginning of value"),
    unmarshalLayersMetadata := fun s =>
      if s = sampleLayersDoc then .ok sampleLayersMetadata
      else if s = sampleTagLayersDoc then .ok sampleTagLayersMetadata
      else .error (Error.new "invalid character looking for beginning of value"),
    ParseReference := name.ParseReference }

/-- The creation time of the sample images. -/
def sampleCreated : Time := ⟨1600000000000000000⟩

/-- The identifier under which the sample application image is fetched. -/
def sampleAppImageId : String :=
  "myregistry.io/app@sha256:fedcba9876543210fedcba9876543210fedcba9876543210fedcba9876543210"

/-- An application image carrying all three labels. -/
def sampleImage : Image :=
  { ConfigFile := .ok
      { Created := sampleCreated,
        Labels := [(platform.StackIDLabel, "io.buildpacks.stacks.bionic"),
                   (platform.BuildMetadataLabel, sampleBuildDoc),
                   (platform.LayerMetadataLabel, sampleLayersDoc)] } }

/-- An application image missing only the stack-ID label. -/
def sampleImageNoStackID : Image :=
  { ConfigFile := .ok
      { Created := sampleCreated,
        Labels := [(platform.BuildMetadataLabel, sampleBuildDoc),
                   (platform.LayerMetadataLabel, sampleLayersDoc)] } }

/-- An application image carrying the layer-metadata label only. -/
def sampleImageLayersOnly : Image :=
  { ConfigFile := .ok
      { Created := sampleCreated,
        Labels := [(platform.LayerMetadataLabel, sampleLayersDoc)] } }

/-- An application image carrying the stack-ID and layer-metadata labels, without
the build-metadata label. -/
def sampleImageNoBuildMetadata : Image :=
  { ConfigFile := .ok
      { Created := sampleCreated,
        Labels := [(platform.StackIDLabel, "io.buildpacks.stacks.bionic"),
                   (platform.LayerMetadataLabel, sampleLayersDoc)] } }

/-- An application image whose recorded run-image reference is a tag reference. -/
def sampleImageTagRunImage : Image :=
  { ConfigFile := .ok
      { Created := sampleCreated,
        Labels := [(platform.StackIDLabel, "io.buildpacks.stacks.bionic"),
                   (platform.BuildMetadataLabel, sampleBuildDoc),
                   (platform.LayerMetadataLabel, sampleTagLayersDoc)] } }

/-- A build with a destination tag and a registry cache. -/
def sampleBuild : Build :=
  { Namespace := "team-a",
    Spec := { Tags := some ["myregistry.io/app:v1", "myregistry.io/app:latest"],
              ServiceAccountName := "builder-sa",
              Cache := some { Volume := none, Registry := some { Tag := "myregistry.io/app-cache" } } } }

/-- A build with a volume cache only. -/
def sampleBuildVolumeCache : Build :=
  { Namespace := "team-a",
    Spec := { Tags := some ["myregistry.io/app:v1"],
              ServiceAccountName := "builder-sa",
              Cache := some { Volume := some { ClaimName := "cache-pvc" }, Registry := none } } }

/-- The keychain the sample factory resolves for the sample build. -/
def sampleKeychain : Keychain := ⟨"team-a/builder-sa"⟩

/-- The identifier of the sample cache image. -/
def sampleCacheImageId : String :=
  "myregistry.io/app-cache@sha256:00000000000000000000000000000000000000000000000000000000000000aa"

/-- A retriever whose factory resolves the keychain of `builder-sa` in `team-a`
and whose fetcher serves the application image `img` at the destination tag and
a cache image at the cache tag. -/
def sampleRetriever (img : Image) : RemoteMetadataRetriever :=
  { KeychainFactory := fun ref =>
      if ref = ⟨"builder-sa", "team-a"⟩ then .ok sampleKeychain
      else .error (Error.new "serviceaccount not found"),
    ImageFetcher := fun keychain repoName =>
      if keychain = sampleKeychain ∧ repoName = "myregistry.io/app:v1" then
        .ok (img, sampleAppImageId)
      else if keychain = sampleKeychain ∧ repoName = "myregistry.io/app-cache" then
        .ok (sampleImageLayersOnly, sampleCacheImageId)
      else .error (Error.new "image not found") }

/-- A retriever whose keychain factory fails for every identity. -/
def sampleRetrieverNoKeychain : RemoteMetadataRetriever :=
  { KeychainFactory := fun _ => .error (Error.new "serviceaccount not found"),
    ImageFetcher := fun _ _ => .ok (sampleImage, sampleAppImageId) }

/-- A retriever whose image fetcher fails for every reference. -/
def sampleRetrieverNoFetch : RemoteMetadataRetriever :=
  { KeychainFactory := fun _ => .ok sampleKeychain,
    ImageFetcher := fun _ _ => .error (Error.new "image not found") }

/-! ## Bytes and content sniffing (`net/http`, `http.DetectContentType`)

A byte is a natural number below 256; byte strings are lists of bytes. -/

/-- A byte. -/
abbrev Byte := Nat

/-- The bytes of an ASCII string literal. -/
def bytesOf (s : String) : List Byte := s.toList.map Char.toNat

/-- `bytes.HasPrefix(data, sig)`. -/
def bytes.HasPrefix : List Byte → List Byte → Bool
  | _, [] => true
  | [], _ :: _ => false
  | d :: ds, p :: ps => d == p && bytes.HasPrefix ds ps

/-- The constant `sniffLen`: the number of bytes a sniffing algorithm looks at. -/
def http.sniffLen : Nat := 512

/-- The function `isWS`: the whitespace bytes of the sniffing standard. -/
def http.isWS (b : Byte) : Bool :=
  b == 0x09 || b == 0x0A || b == 0x0C || b == 0x0D || b == 0x20

/-- The function `isTT`: the tag-terminating bytes, space and `>`. -/
def http.isTT (b : Byte) : Bool :=
  b == 0x20 || b == 0x3E

/-- The implementations of the interface `sniffSig`. -/
inductive http.sniffSig where
  | htmlSig (h : List Byte)
  | maskedSig (mask pat : List Byte) (skipWS : Bool) (ct : String)
  | exactSig (sig : List Byte) (ct : String)
  | mp4Sig
  | textSig

/-- The loop of `htmlSig.match`: every byte of the signature equals the data
byte, compared without case for the letters of the signature. -/
def http.htmlBytesMatch : List Byte → List Byte → Bool
  | [], _ => true
  | _ :: _, [] => false
  | b :: bs, db :: ds =>
    let db2 := if 0x41 ≤ b ∧ b ≤ 0x5A then db &&& 0xDF else db
    b == db2 && http.htmlBytesMatch bs ds

/-- The loop of `maskedSig.match`: every data byte, masked, equals the pattern byte. -/
def http.maskedBytesMatch : List Byte → List Byte → List Byte → Bool
  | [], _, _ => true
  | pb :: ps, m :: ms, d :: ds => (d &&& m) == pb && http.maskedBytesMatch ps ms ds
  | _ :: _, _, _ => false

/-- The method `mp4Sig.match`: a box of type `ftyp` whose size is a multiple of
four within the data, with a brand `mp4` at offset 8 or at an offset from 16 on. -/
def http.mp4Match (data : List Byte) : String :=
  if data.length < 12 then ""
  else
    let boxSize := ((data.getD 0 0 * 256 + data.getD 1 0) * 256 + data.getD 2 0) * 256
      + data.getD 3 0
    if data.length < boxSize ∨ boxSize % 4 ≠ 0 then ""
    else if (data.drop 4).take 4 ≠ bytesOf "ftyp" then ""
    else if (List.range (boxSize / 4)).any (fun k =>
        decide (8 ≤ 4 * k) && decide (4 * k ≠ 12) &&
          decide ((data.drop (4 * k)).take 3 = bytesOf "mp4")) then "video/mp4"
    else ""

/-- The method `textSig.match`: no byte from the first non-whitespace byte on is
a binary data byte. -/
def http.textMatch (data : List Byte) (firstNonWS : Nat) : String :=
  if (data.drop firstNonWS).any (fun b =>
      decide (b ≤ 0x08) || b == 0x0B || (decide (0x0E ≤ b) && decide (b ≤ 0x1A)) ||
        (decide (0x1C ≤ b) && decide (b ≤ 0x1F))) then ""
  else "text/plain; charset=utf-8"

/-- The method `match` of a signature: the content type, or `""` when the
signature does not match. -/
def http.sniffSig.matchSig (sig : http.sniffSig) (data : List Byte) (firstNonWS : Nat) : String :=
  match sig with
  | .htmlSig h =>
    let data2 := data.drop firstNonWS
    if data2.length < h.length + 1 then ""
    else if !http.htmlBytesMatch h data2 then ""
    else if !http.isTT (data2.getD h.length 0) then ""
    else "text/html; charset=utf-8"
  | .maskedSig mask pat skipWS ct =>
    let data2 := if skipWS then data.drop firstNonWS else data
    if pat.length ≠ mask.length then ""
    else if data2.length < pat.length then ""
    else if http.maskedBytesMatch pat mask data2 then ct
    else ""
  | .exactSig sig ct => if bytes.HasPrefix data sig then ct else ""
  | .mp4Sig => http.mp4Match data
  | .textSig => http.textMatch data firstNonWS

/-- The table `sniffSignatures`, in order. -/
def http.sniffSignatures : List http.sniffSig :=
  [ .htmlSig (bytesOf "<!DOCTYPE HTML"),
    .htmlSig (bytesOf "<HTML"),
    .htmlSig (bytesOf "<HEAD"),
    .htmlSig (bytesOf "<SCRIPT"),
    .htmlSig (bytesOf "<IFRAME"),
    .htmlSig (bytesOf "<H1"),
    .htmlSig (bytesOf "<DIV"),
    .htmlSig (bytesOf "<FONT"),
    .htmlSig (bytesOf "<TABLE"),
    .htmlSig (bytesOf "<A"),
    .htmlSig (bytesOf "<STYLE"),
    .htmlSig (bytesOf "<TITLE"),
    .htmlSig (bytesOf "<B"),
    .htmlSig (bytesOf "<BODY"),
    .htmlSig (bytesOf "<BR"),
    .htmlSig (bytesOf "<P"),
    .htmlSig (bytesOf "<!--"),
    .maskedSig [0xFF, 0xFF, 0xFF, 0xFF, 0xFF] (bytesOf "<?xml") true "text/xml; charset=utf-8",
    .exactSig (bytesOf "%PDF-") "application/pdf",
    .exactSig (bytesOf "%!PS-Adobe-") "application/postscript",
    .maskedSig [0xFF, 0xFF, 0x00, 0x00] [0xFE, 0xFF, 0x00, 0x00] false
      "text/plain; charset=utf-16be",
    .maskedSig [0xFF, 0xFF, 0x00, 0x00] [0xFF, 0xFE, 0x00, 0x00] false
      "text/plain; charset=utf-16le",
    .maskedSig [0xFF, 0xFF, 0xFF, 0x00] [0xEF, 0xBB, 0xBF, 0x00] false
      "text/plain; charset=utf-8",
    .exactSig [0x00, 0x00, 0x01, 0x00] "image/x-icon",
    .exactSig [0x00, 0x00, 0x02, 0x00] "image/x-icon",
    .exactSig (bytesOf "BM") "image/bmp",
    .exactSig (bytesOf "GIF87a") "image/gif",
    .exactSig (bytesOf "GIF89a") "image/gif",
    .maskedSig [0xFF, 0xFF, 0xFF, 0xFF, 0, 0, 0, 0, 0xFF, 0xFF, 0xFF, 0xFF, 0xFF, 0xFF]
      (bytesOf "RIFF" ++ [0, 0, 0, 0] ++ bytesOf "WEBPVP") false "image/webp",
    .exactSig ([0x89] ++ bytesOf "PNG" ++ [0x0D, 0x0A, 0x1A, 0x0A]) "image/png",
    .exactSig [0xFF, 0xD8, 0xFF] "image/jpeg",
    .maskedSig [0xFF, 0xFF, 0xFF, 0xFF, 0, 0, 0, 0, 0xFF, 0xFF, 0xFF, 0xFF]
      (bytesOf "FORM" ++ [0, 0, 0, 0] ++ bytesOf "AIFF") false "audio/aiff",
    .maskedSig [0xFF, 0xFF, 0xFF] (bytesOf "ID3") false "audio/mpeg",
    .maskedSig [0xFF, 0xFF, 0xFF, 0xFF, 0xFF] (bytesOf "OggS" ++ [0]) false "application/ogg",
    .maskedSig [0xFF, 0xFF, 0xFF, 0xFF, 0xFF, 0xFF, 0xFF, 0xFF]
      (bytesOf "MThd" ++ [0, 0, 0, 6]) false "audio/midi",
    .maskedSig [0xFF, 0xFF, 0xFF, 0xFF, 0, 0, 0, 0, 0xFF, 0xFF, 0xFF, 0xFF]
      (bytesOf "RIFF" ++ [0, 0, 0, 0] ++ bytesOf "AVI ") false "video/avi",
    .maskedSig [0xFF, 0xFF, 0xFF, 0xFF, 0, 0, 0, 0, 0xFF, 0xFF, 0xFF, 0xFF]
      (bytesOf "RIFF" ++ [0, 0, 0, 0] ++ bytesOf "WAVE") false "audio/wave",
    .mp4Sig,
    .exactSig [0x1A, 0x45, 0xDF, 0xA3] "video/webm",
    .maskedSig (List.replicate 34 0 ++ [0xFF, 0xFF]) (List.replicate 34 0 ++ bytesOf "LP") false
      "application/vnd.ms-fontobject",
    .exactSig [0x00, 0x01, 0x00, 0x00] "font/ttf",
    .exactSig (bytesOf "OTTO") "font/otf",
    .exactSig (bytesOf "ttcf") "font/collection",
    .exactSig (bytesOf "wOFF") "font/woff",
    .exactSig (bytesOf "wOF2") "font/woff2",
    .exactSig [0x1F, 0x8B, 0x08] "application/x-gzip",
    .exactSig (bytesOf "PK" ++ [0x03, 0x04]) "application/zip",
    .exactSig (bytesOf "Rar!" ++ [0x1A, 0x07, 0x00]) "application/x-rar-compressed",
    .exactSig (bytesOf "Rar!" ++ [0x1A, 0x07, 0x01, 0x00]) "application/x-rar-compressed",
    .exactSig [0x00, 0x61, 0x73, 0x6D] "application/wasm",
    .textSig ]

/-- The loop of `DetectContentType` over the signatures: the first content type
that is not empty, else the fallback `application/octet-stream`. -/
def http.firstMatch (data : List Byte) (firstNonWS : Nat) : List http.sniffSig → String
  | [] => "application/octet-stream"
  | sig :: sigs =>
    let ct := sig.matchSig data firstNonWS
    if ct ≠ "" then ct else http.firstMatch data firstNonWS sigs

/-- The function `http.DetectContentType`: the content type of the first
`sniffLen` bytes of the data. -/
def http.DetectContentType (data : List Byte) : String :=
  let data2 := if data.length > http.sniffLen then data.take http.sniffLen else data
  let firstNonWS := (data2.takeWhile http.isWS).length
  http.firstMatch data2 firstNonWS http.sniffSignatures

/-! ## Files and streams

An open file (`*os.File`) is its name, its bytes, the read/write offset and the
outcomes the operating system gives to the operations still to come on the
handle: each operation takes the head of `faults`, and `some e` there makes it
fail with `e`.  The same record is the `io.ReadSeeker` of `classifyFile`. -/

/-- The error `io.EOF`. -/
def io.EOF : Error := Error.new "EOF"

/-- An open file, seen as a seekable byte stream. -/
structure File where
  name : String
  data : List Byte
  offset : Nat
  faults : List (Option Error)
deriving DecidableEq, Repr

/-- The method `File.Name`. -/
def File.Name (f : File) : String := f.name

/-- The outcome of the next operation on the handle, and the handle after it. -/
def File.nextFault (f : File) : Option Error × File :=
  match f.faults with
  | [] => (none, f)
  | x :: rest => (x, { f with faults := rest })

/-- The method `Read` on a buffer of `n` bytes: the bytes read and the error.  A
regular file gives `min n remaining` bytes, and `io.EOF` with no byte at its end. -/
def File.Read (f : File) (n : Nat) : (List Byte × Option Error) × File :=
  match f.nextFault with
  | (some err, f2) => (([], some err), f2)
  | (none, f2) =>
    if n = 0 then (([], none), f2)
    else if f2.data.length ≤ f2.offset then (([], some io.EOF), f2)
    else
      let bs := (f2.data.drop f2.offset).take n
      ((bs, none), { f2 with offset := f2.offset + bs.length })

/-- The method `Seek(offset, whence)`: whence 0 counts from the start, 1 from
the current offset, 2 from the end; the new offset and the error. -/
def File.Seek (f : File) (offset : Int) (whence : Int) : (Int × Option Error) × File :=
  match f.nextFault with
  | (some err, f2) => ((0, some err), f2)
  | (none, f2) =>
    let base : Option Int :=
      if whence = 0 then some 0
      else if whence = 1 then some (f2.offset : Int)
      else if whence = 2 then some (f2.data.length : Int)
      else none
    match base with
    | none => ((0, some (Error.new "invalid argument")), f2)
    | some b =>
      if b + offset < 0 then ((0, some (Error.new "invalid argument")), f2)
      else ((b + offset, none), { f2 with offset := (b + offset).toNat })

/-- The part of `os.FileInfo` that is read: `Size()`. -/
structure FileInfo where
  Size : Int
deriving DecidableEq, Repr

/-- The method `Stat`: the size of the file in bytes, or an error. -/
def File.Stat (f : File) : Except Error FileInfo × File :=
  match f.nextFault with
  | (some err, f2) => (.error err, f2)
  | (none, f2) => (.ok { Size := (f2.data.length : Int) }, f2)

/-- The bytes a reader gets by reading the stream from its offset to its end. -/
def File.rest (f : File) : List Byte := f.data.drop f.offset

/-- The function `classifyFile` of `fetch.go`: the media type and the error,
with the stream after the call. -/
def classifyFile (reader : File) : (String × Option Error) × File :=
  let buf0 : List Byte := List.replicate 512 0
  match reader.Read buf0.length with
  | ((_, some err), r2) => (("", some err), r2)
  | ((bs, none), r2) =>
    let buf := bs ++ buf0.drop bs.length
    match r2.Seek 0 0 with
    | ((_, some err), r3) => (("", some err), r3)
    | ((_, none), r3) => ((http.DetectContentType buf, none), r3)

/-! ## The blob fetcher (`pkg/blob/fetch.go`) -/

/-- The part of `http.Response` that is read: the status code and the body; the
body delivers `Body` and then ends, cleanly or with `BodyErr`. -/
structure Response where
  StatusCode : Int
  Body : List Byte
  BodyErr : Option Error
deriving DecidableEq, Repr

/-- The part of `url.URL` that is read. -/
structure URL where
  Host : String
  Path : String
deriving DecidableEq, Repr

/-- What `Fetch` does to the outside, in order. -/
inductive Event where
  | Get (url : String)
  | TempFile (name : String)
  | classifyFile (name : String)
  | ExtractZip (file : File) (size : Int) (dir : String)
  | ExtractTarGZ (file : File) (dir : String)
  | ExtractTar (file : File) (dir : String)
  | RemoveAll (path : String)
  | Printf (format : String) (args : List String)
deriving DecidableEq, Repr

/-- The event is the call of an extractor. -/
def Event.isExtract : Event → Bool
  | .ExtractZip _ _ _ => true
  | .ExtractTarGZ _ _ => true
  | .ExtractTar _ _ => true
  | _ => false

/-- The surroundings of `Fetch`: the network, the temporary directory, and the
functions of package `archive` (not among the sources), all as parameters. -/
structure Env where
  urlParse : String → Except Error URL
  roundTrip : String → Except Error Response
  tempDir : String
  tempRandom : Nat
  tempFileErr : Option Error
  tempFaults : List (Option Error)
  IsTar : String → Bool
  ExtractZip : File → Int → String → Option Error
  ExtractTarGZ : File → String → Option Error
  ExtractTar : File → String → Option Error

/-- The function `http.Get`: the URL is parsed with `url.Parse` when the request
is built, and a parse error is returned as it is; then the request is sent. -/
def http.Get (env : Env) (url : String) : Except Error Response :=
  match env.urlParse url with
  | .error err => .error err
  | .ok _ => env.roundTrip url

/-- The function `ioutil.TempFile(dir, pattern)` for a pattern without `*`: a new
empty file named by the pattern followed by a random decimal number, in `dir` or,
when `dir` is empty, in the default temporary directory. -/
def ioutil.TempFile (env : Env) (dir pattern : String) : Except Error File :=
  match env.tempFileErr with
  | some err => .error err
  | none =>
    .ok { name := (if dir = "" then env.tempDir else dir) ++ "/" ++ pattern ++
            Nat.repr env.tempRandom,
          data := [], offset := 0, faults := env.tempFaults }

/-- The function `io.Copy(dst, resp.Body)`: the body is written at the offset of
the file; the number of bytes and the error of the write or of the body. -/
def io.Copy (dst : File) (src : Response) : (Int × Option Error) × File :=
  match dst.nextFault with
  | (some err, f2) => ((0, some err), f2)
  | (none, f2) =>
    let f3 : File :=
      { f2 with data := f2.data.take f2.offset ++ src.Body ++
                  f2.data.drop (f2.offset + src.Body.length),
                offset := f2.offset + src.Body.length }
    ((src.Body.length, src.BodyErr), f3)

/-- The variable `unexpectedBlobTypeError`. -/
def unexpectedBlobTypeError : Error :=
  Error.new "unexpected blob file type, must be one of .zip, .tar.gz, .tar, .jar"

/-- The function `downloadBlob`: the file or the error, the events, and the
transient files that exist when it returns. -/
def downloadBlob (env : Env) (blobURL : String) : Except Error File × List Event × List String :=
  match http.Get env blobURL with
  | .error err => (.error err, [Event.Get blobURL], [])
  | .ok resp =>
    if resp.StatusCode ≠ 200 then
      (.error (errors.Errorf ("failed to get blob " ++ blobURL)), [Event.Get blobURL], [])
    else
      match ioutil.TempFile env "" "" with
      | .error err => (.error err, [Event.Get blobURL], [])
      | .ok file =>
        match io.Copy file resp with
        | ((_, some err), _) =>
          (.error err, [Event.Get blobURL, Event.TempFile file.Name], [file.Name])
        | ((_, none), file2) =>
          match file2.Seek 0 0 with
          | ((_, some err), _) =>
            (.error err, [Event.Get blobURL, Event.TempFile file.Name], [file.Name])
          | ((_, none), file3) =>
            (.ok file3, [Event.Get blobURL, Event.TempFile file.Name], [file.Name])

/-- What `Fetch` returns and leaves behind: the error, the events in order, and
the transient files that exist when it returns. -/
structure FetchResult where
  err : Option Error
  events : List Event
  files : List String
deriving DecidableEq, Repr

/-- A return of `Fetch` after `defer os.RemoveAll(file.Name())` was registered:
the file is removed, then `err` is returned. -/
def Fetcher.returnDeferred (file : File) (files : List String) (err : Option Error)
    (events : List Event) : FetchResult :=
  { err := err,
    events := events ++ [Event.RemoveAll file.Name],
    files := files.filter (fun n => n ≠ file.Name) }

/-- Lines 51 to 61 of `Fetch`: the error of the extractor is returned; without
one the URL is parsed, the success line is logged and nil is returned. -/
def Fetcher.afterExtract (env : Env) (dir blobURL : String) (file : File)
    (files : List String) (err : Option Error) (events : List Event) : FetchResult :=
  match err with
  | some e => Fetcher.returnDeferred file files (some e) events
  | none =>
    match env.urlParse blobURL with
    | .error e => Fetcher.returnDeferred file files (some e) events
    | .ok u =>
      Fetcher.returnDeferred file files none
        (events ++ [Event.Printf "Successfully downloaded %s%s in path %q" [u.Host, u.Path, dir]])

/-- The variable `err` of `Fetch` after the clause `case "application/zip"`, once
the stat has succeeded.  Line 36, `info, err := file.Stat()`, declares a new `err`
whose scope is the clause; line 40 assigns the error of the zip extractor to that
one; the `err` that line 51 tests is the one of the function body, which the
clause leaves as it was. -/
def Fetcher.errAfterZipClause (outerErr : Option Error) (_clauseErr : Option Error) :
    Option Error :=
  outerErr

/-- The method `Fetcher.Fetch`. -/
def Fetcher.Fetch (env : Env) (dir blobURL : String) : FetchResult :=
  match downloadBlob env blobURL with
  | (.error err, events, files) => { err := some err, events := events, files := files }
  | (.ok file, events, files) =>
    let events1 := events ++ [Event.classifyFile file.Name]
    match classifyFile file with
    | ((_, some err), _) => Fetcher.returnDeferred file files (some err) events1
    | ((mediaType, none), file1) =>
      if mediaType = "application/zip" then
        match file1.Stat with
        | (.error err, _) => Fetcher.returnDeferred file files (some err) events1
        | (.ok info, file2) =>
          Fetcher.afterExtract env dir blobURL file files
            (Fetcher.errAfterZipClause none (env.ExtractZip file2 info.Size dir))
            (events1 ++ [Event.ExtractZip file2 info.Size dir])
      else if mediaType = "application/x-gzip" then
        Fetcher.afterExtract env dir blobURL file files (env.ExtractTarGZ file1 dir)
          (events1 ++ [Event.ExtractTarGZ file1 dir])
      else if mediaType = "application/octet-stream" then
        if !env.IsTar file1.Name then
          Fetcher.returnDeferred file files (some unexpectedBlobTypeError) events1
        else
          Fetcher.afterExtract env dir blobURL file files (env.ExtractTar file1 dir)
            (events1 ++ [Event.ExtractTar file1 dir])
      else Fetcher.returnDeferred file files (some unexpectedBlobTypeError) events1

/-- `strings.HasSuffix(s, suffix)`. -/
def strings.HasSuffix (s suffix : String) : Bool :=
  suffix.toList.isSuffixOf s.toList

/-- Modelled from the spec: `archive.IsTar` (package `pkg/archive` is not among
the sources).  The file-name check of the spec: the name ends in the literal
suffix `.tar`. -/
def archive.IsTar (fileName : String) : Bool :=
  strings.HasSuffix fileName ".tar"

/-! ## `BuilderRecord.DeepCopy` (`zz_generated.deepcopy.go`) -/

/-- The built-in `make([]T, n)`: `n` zero values. -/
def Go.make {α : Type} (zero : α) (n : Nat) : List α := List.replicate n zero

/-- The built-in `copy(dst, src)`: the first `min (len dst) (len src)` elements
of `dst` are overwritten with those of `src`. -/
def Go.copy {α : Type} (dst src : List α) : List α :=
  src.take dst.length ++ dst.drop src.length

/-- The type `BuildStack`. -/
structure BuildStack where
  RunImage : String
  ID : String
deriving DecidableEq, Repr

/-- The element type of `v1alpha1.BuildpackMetadataList`: id, version, homepage. -/
structure BuildpackMetadata where
  Id : String
  Version : String
  Homepage : String
deriving DecidableEq, Repr

/-- The type `v1alpha1.BuildpackRef`: a buildpack reference of an order group. -/
structure BuildpackRef where
  Id : String
  Version : String
  Optional : Bool
deriving DecidableEq, Repr

/-- The type `v1alpha1.OrderEntry`: a group of buildpack references. -/
structure OrderEntry where
  Group : Slice BuildpackRef
deriving DecidableEq, Repr

/-- The type `BuilderRecord`. -/
structure BuilderRecord where
  Image : String
  Stack : BuildStack
  Buildpacks : Slice BuildpackMetadata
  Order : Slice OrderEntry
deriving DecidableEq, Repr

/-- The zero value of `BuildpackMetadata`. -/
def BuildpackMetadata.zero : BuildpackMetadata := ⟨"", "", ""⟩

/-- The zero value of `BuildpackRef`. -/
def BuildpackRef.zero : BuildpackRef := ⟨"", "", false⟩

/-- The zero value of `OrderEntry`. -/
def OrderEntry.zero : OrderEntry := ⟨none⟩

/-- The copy that deepcopy-gen emits for a struct with one slice field: the
struct is assigned and a non-nil group is copied into a new slice of the same
length.  It serves as the copy of an order entry in the samples;
`OrderEntry.DeepCopyInto` itself is declared in package `core/v1alpha1`, which
is not among the sources, and is a parameter of the definitions below. -/
def OrderEntry.generatedCopy (inp : OrderEntry) (_out : OrderEntry) : OrderEntry :=
  let out1 : OrderEntry := inp
  match inp.Group with
  | none => out1
  | some g => { out1 with Group := some (Go.copy (Go.make BuildpackRef.zero g.length) g) }

/-- The loop `for i := range *in` of `BuilderRecord.DeepCopyInto` over the
indices still to visit: element `i` of `inp` is deep-copied into element `i` of
`out` by `deepCopyEntry inp[i] out[i]`, the value `(*in)[i].DeepCopyInto(&(*out)[i])`
leaves in `(*out)[i]`. -/
def BuilderRecord.copyOrder (deepCopyEntry : OrderEntry → OrderEntry → OrderEntry)
    (inp : List OrderEntry) (out : List OrderEntry) : List Nat → List OrderEntry
  | [] => out
  | i :: rest =>
    match inp.get? i, out.get? i with
    | some a, some b =>
      BuilderRecord.copyOrder deepCopyEntry inp (out.set i (deepCopyEntry a b)) rest
    | _, _ => BuilderRecord.copyOrder deepCopyEntry inp out rest

/-- A heap address. -/
abbrev Addr := Nat

/-- A slice that is not nil: the address of its backing array and its length. -/
structure SliceHeader where
  array : Addr
  len : Nat
deriving DecidableEq, Repr

/-- What is stored at the address of a `BuilderRecord`: the plain fields, and the
two slices (`none` is the nil slice). -/
structure BuilderRecordCell where
  Image : String
  Stack : BuildStack
  Buildpacks : Option SliceHeader
  Order : Option SliceHeader
deriving DecidableEq, Repr

/-- The zero value of `BuilderRecord`, what `new(BuilderRecord)` points to. -/
def BuilderRecordCell.zero : BuilderRecordCell := ⟨"", ⟨"", ""⟩, none, none⟩

/-- The heap: the addresses below `next` are allocated; the records and the
backing arrays of the two kinds of slices, by address. -/
structure Heap where
  next : Addr
  record : Addr → BuilderRecordCell
  buildpackArray : Addr → List BuildpackMetadata
  orderArray : Addr → List OrderEntry

/-- The store of a record at an address. -/
def Heap.setRecord (h : Heap) (a : Addr) (c : BuilderRecordCell) : Heap :=
  { h with record := fun x => if x = a then c else h.record x }

/-- The store of a backing array of buildpack metadata at an address. -/
def Heap.setBuildpackArray (h : Heap) (a : Addr) (l : List BuildpackMetadata) : Heap :=
  { h with buildpackArray := fun x => if x = a then l else h.buildpackArray x }

/-- The store of a backing array of order entries at an address. -/
def Heap.setOrderArray (h : Heap) (a : Addr) (l : List OrderEntry) : Heap :=
  { h with orderArray := fun x => if x = a then l else h.orderArray x }

/-- The built-in `new(BuilderRecord)`: a zero record at the next free address. -/
def Heap.newRecord (h : Heap) : Addr × Heap :=
  (h.next, { h.setRecord h.next BuilderRecordCell.zero with next := h.next + 1 })

/-- The built-in `make(v1alpha1.BuildpackMetadataList, n)`: a backing array of
`n` zero values at the next free address. -/
def Heap.makeBuildpacks (h : Heap) (n : Nat) : SliceHeader × Heap :=
  (⟨h.next, n⟩,
   { h.setBuildpackArray h.next (Go.make BuildpackMetadata.zero n) with next := h.next + 1 })

/-- The built-in `make([]v1alpha1.OrderEntry, n)`: a backing array of `n` zero
values at the next free address. -/
def Heap.makeOrder (h : Heap) (n : Nat) : SliceHeader × Heap :=
  (⟨h.next, n⟩, { h.setOrderArray h.next (Go.make OrderEntry.zero n) with next := h.next + 1 })

/-- The elements of a slice of buildpack metadata. -/
def Heap.buildpacks (h : Heap) (s : SliceHeader) : List BuildpackMetadata :=
  (h.buildpackArray s.array).take s.len

/-- The elements of a slice of order entries. -/
def Heap.order (h : Heap) (s : SliceHeader) : List OrderEntry :=
  (h.orderArray s.array).take s.len

/-- The record at an address, read as a value: the slices by their elements. -/
def Heap.read (h : Heap) (a : Addr) : BuilderRecord :=
  { Image := (h.record a).Image,
    Stack := (h.record a).Stack,
    Buildpacks := (h.record a).Buildpacks.map h.buildpacks,
    Order := (h.record a).Order.map h.order }

/-- The record at `a` is a valid receiver: it is allocated, and so are the
backing arrays of its slices, which hold at least the length of the slice. -/
def Heap.valid (h : Heap) (a : Addr) : Bool :=
  decide (a < h.next) &&
  (match (h.record a).Buildpacks with
   | none => true
   | some s => decide (s.array < h.next) && decide (s.len ≤ (h.buildpackArray s.array).length)) &&
  (match (h.record a).Order with
   | none => true
   | some s => decide (s.array < h.next) && decide (s.len ≤ (h.orderArray s.array).length))

/-- The block `if in.Buildpacks != nil` of `BuilderRecord.DeepCopyInto`: inside
it `in` and `out` are the addresses of the two fields, and `*in` and `*out` are
read again after the store of the new slice. -/
def BuilderRecord.copyBuildpacks (h : Heap) (inp out : Addr) : Heap :=
  match (h.record inp).Buildpacks with
  | none => h
  | some src =>
    let made := h.makeBuildpacks src.len
    let h1 := made.2.setRecord out { made.2.record out with Buildpacks := some made.1 }
    match (h1.record out).Buildpacks, (h1.record inp).Buildpacks with
    | some d, some s =>
      h1.setBuildpackArray d.array
        (Go.copy (h1.buildpacks d) (h1.buildpacks s) ++ (h1.buildpackArray d.array).drop d.len)
    | _, _ => h1

/-- The block `if in.Order != nil` of `BuilderRecord.DeepCopyInto`: inside it `in`
and `out` are the addresses of the two fields, and `*in` and `*out` are read
again after the store of the new slice. -/
def BuilderRecord.copyOrderSlice (deepCopyEntry : OrderEntry → OrderEntry → OrderEntry)
    (h : Heap) (inp out : Addr) : Heap :=
  match (h.record inp).Order with
  | none => h
  | some src =>
    let made := h.makeOrder src.len
    let h1 := made.2.setRecord out { made.2.record out with Order := some made.1 }
    match (h1.record out).Order, (h1.record inp).Order with
    | some d, some s =>
      h1.setOrderArray d.array
        (BuilderRecord.copyOrder deepCopyEntry (h1.order s) (h1.order d)
            (List.range (h1.order s).length) ++
          (h1.orderArray d.array).drop d.len)
    | _, _ => h1

/-- The method `BuilderRecord.DeepCopyInto`, from the record at `inp` into the
record at `out`: the heap after the call. -/
def BuilderRecord.DeepCopyInto (deepCopyEntry : OrderEntry → OrderEntry → OrderEntry)
    (h : Heap) (inp out : Addr) : Heap :=
  let h1 := h.setRecord out (h.record inp)
  let h2 := h1.setRecord out { h1.record out with Stack := (h1.record inp).Stack }
  let h3 := BuilderRecord.copyBuildpacks h2 inp out
  BuilderRecord.copyOrderSlice deepCopyEntry h3 inp out

/-- The method `BuilderRecord.DeepCopy`; a nil pointer is `none`.  The pointer
returned and the heap after the call. -/
def BuilderRecord.DeepCopy (deepCopyEntry : OrderEntry → OrderEntry → OrderEntry)
    (h : Heap) (inp : Option Addr) : Option Addr × Heap :=
  match inp with
  | none => (none, h)
  | some a =>
    let made := h.newRecord
    (some made.1, BuilderRecord.DeepCopyInto deepCopyEntry made.2 a made.1)

/-! ## Sample data of the blob fetcher and of the builder record -/

/-- A tar archive with the one file `hello.txt`: header block, data block, and
the two zero blocks that end the archive. -/
def sampleTarBody : List Byte :=
  bytesOf "hello.txt" ++ List.replicate 91 0 ++ bytesOf "0000644" ++ [0] ++
    bytesOf "0000000" ++ [0] ++ bytesOf "0000000" ++ [0] ++ bytesOf "00000000006" ++ [0] ++
    bytesOf "00000000000" ++ [0] ++ bytesOf "007605" ++ [0, 32, 48] ++ List.replicate 100 0 ++
    bytesOf "ustar" ++ [0, 48, 48] ++ List.replicate 247 0 ++ bytesOf "hello" ++ [10] ++
    List.replicate 1530 0

/-- A zip archive with the one stored file `hello.txt`. -/
def sampleZipBody : List Byte :=
  [80, 75, 3, 4, 20] ++ List.replicate 7 0 ++
    [33, 0, 32, 48, 58, 54, 6, 0, 0, 0, 6, 0, 0, 0, 9, 0] ++ [0, 0] ++
    bytesOf "hello.txthello" ++ [10, 80, 75, 1, 2, 20, 3, 20] ++ List.replicate 7 0 ++
    [33, 0, 32, 48, 58, 54, 6, 0, 0, 0, 6, 0, 0, 0, 9] ++ List.replicate 11 0 ++ [128, 1] ++
    List.replicate 4 0 ++ bytesOf "hello.txtPK" ++ [5, 6] ++ List.replicate 4 0 ++
    [1, 0, 1, 0, 55, 0, 0, 0, 45] ++ List.replicate 5 0

/-- The gzip compression of `sampleTarBody`. -/
def sampleGzipBody : List Byte :=
  [31, 139, 8] ++ List.replicate 5 0 ++
    [2, 3, 203, 72, 205, 201, 201, 215, 43, 169, 40, 97, 160, 29, 48, 0] ++
    [2, 51, 19, 19, 48, 13, 4, 232, 52, 72, 22, 137, 13, 18] ++ bytesOf "7730eP0" ++
    [96, 160, 3, 40] ++ bytesOf "-.I" ++ [44, 2, 90, 201] ++ bytesOf "02A" ++
    [6, 40, 254, 185, 24, 70, 193, 40, 24, 5, 163, 96, 20, 140, 48, 0] ++
    [0, 9, 178, 23, 12, 0, 8, 0, 0]

/-- A plain text of 600 bytes. -/
def sampleLongText : List Byte := List.replicate 600 0x61

/-- The sample blobs: URL, path of the URL, and the response of the server. -/
def sampleBlobs : List (String × String × Response) :=
  [("https://example.com/src/app.zip", "/src/app.zip", ⟨200, sampleZipBody, none⟩),
   ("https://example.com/src/app.tar.gz", "/src/app.tar.gz", ⟨200, sampleGzipBody, none⟩),
   ("https://example.com/src/app.tar", "/src/app.tar", ⟨200, sampleTarBody, none⟩),
   ("https://example.com/src/notes.txt", "/src/notes.txt", ⟨200, bytesOf "hello", none⟩),
   ("https://example.com/src/long.txt", "/src/long.txt", ⟨200, sampleLongText, none⟩),
   ("https://example.com/src/missing.zip", "/src/missing.zip",
      ⟨404, bytesOf "not found", none⟩),
   ("https://example.com/src/broken.zip", "/src/broken.zip",
      ⟨200, sampleZipBody.take 40, some (Error.new "unexpected EOF")⟩)]

/-- Surroundings for the samples: the server of `sampleBlobs`, temporary files
named `/tmp/123456789`, no failing file operation, extractors that succeed, and
the file-name check of the spec for `IsTar`. -/
def sampleEnv : Env :=
  { urlParse := fun u =>
      match sampleBlobs.lookup u with
      | some (path, _) => .ok ⟨"example.com", path⟩
      | none => .error (Error.new "parse: invalid URL"),
    roundTrip := fun u =>
      match sampleBlobs.lookup u with
      | some (_, resp) => .ok resp
      | none => .error (Error.new "dial tcp: no such host"),
    tempDir := "/tmp",
    tempRandom := 123456789,
    tempFileErr := none,
    tempFaults := [],
    IsTar := archive.IsTar,
    ExtractZip := fun _ _ _ => none,
    ExtractTarGZ := fun _ _ => none,
    ExtractTar := fun _ _ => none }

/-- The sample surroundings where the second operation on the temporary file,
the seek that follows the copy, fails. -/
def sampleEnvSeekFails : Env :=
  { sampleEnv with tempFaults := [none, some (Error.new "seek: bad file descriptor")] }

/-- The sample surroundings where the fifth operation on the temporary file, the
stat, fails. -/
def sampleEnvStatFails : Env :=
  { sampleEnv with
    tempFaults := [none, none, none, none, some (Error.new "stat: input/output error")] }

/-- The sample surroundings where the zip extractor fails. -/
def sampleEnvExtractFails : Env :=
  { sampleEnv with ExtractZip := fun _ _ _ => some (Error.new "zip: not a valid zip file") }

/-- The sample surroundings where the gzip+tar extractor fails. -/
def sampleEnvTarGZFails : Env :=
  { sampleEnv with ExtractTarGZ := fun _ _ => some (Error.new "gzip: invalid header") }

/-- The sample surroundings where `IsTar` accepts the path of the transient
file, as it does when the file downloaded there is a tar archive. -/
def sampleEnvTar : Env :=
  { sampleEnv with IsTar := fun fileName => fileName == "/tmp/123456789" }

/-- The buildpacks of the sample record: one buildpack is listed twice. -/
def sampleBuildpacks : List BuildpackMetadata :=
  [⟨"paketo/go", "1.2.3", "https://paketo.io"⟩, ⟨"paketo/ca", "3.0.1", ""⟩,
   ⟨"paketo/go", "1.2.3", "https://paketo.io"⟩]

/-- The order entries of the sample record. -/
def sampleOrder : List OrderEntry :=
  [⟨some [⟨"paketo/ca", "3.0.1", true⟩, ⟨"paketo/go", "1.2.3", false⟩]⟩, ⟨some []⟩, ⟨none⟩]

/-- A builder record with a repeated buildpack and three order entries. -/
def sampleBuilderRecord : BuilderRecord :=
  { Image := "myregistry.io/builder@sha256:aa",
    Stack := { RunImage := "myregistry.io/run@sha256:bb", ID := "io.buildpacks.stacks.bionic" },
    Buildpacks := some sampleBuildpacks,
    Order := some sampleOrder }

/-- A heap with the sample record at address 0, its buildpacks in the array at
address 1 and its order entries in the array at address 2; at address 3 a record
with a nil `Buildpacks` and an empty, non-nil `Order` whose array is at address 4. -/
def sampleHeap : Heap :=
  { next := 5,
    record := fun x =>
      if x = 0 then
        { Image := "myregistry.io/builder@sha256:aa",
          Stack := { RunImage := "myregistry.io/run@sha256:bb",
                     ID := "io.buildpacks.stacks.bionic" },
          Buildpacks := some ⟨1, 3⟩, Order := some ⟨2, 3⟩ }
      else if x = 3 then
        { Image := "myregistry.io/builder@sha256:cc",
          Stack := { RunImage := "myregistry.io/run@sha256:bb",
                     ID := "io.buildpacks.stacks.bionic" },
          Buildpacks := none, Order := some ⟨4, 0⟩ }
      else BuilderRecordCell.zero,
    buildpackArray := fun x => if x = 1 then sampleBuildpacks else [],
    orderArray := fun x => if x = 2 then sampleOrder else [] }

/-- The sample surroundings where the server answers every request with status
200 and an empty body. -/
def sampleEnvEmptyBody : Env :=
  { sampleEnv with roundTrip := fun _ => .ok ⟨200, [], none⟩ }

/-! ## Shared lemmas on `readBuiltImage` -/

/-- When the stack-ID label cannot be read, `readBuiltImage` returns the zero
record and the nil error. -/
theorem readBuiltImage_of_stack_id_error (lib : Lib) (img : Image) (id : String) (e : Error)
    (h : imagehelpers.GetStringLabel img platform.StackIDLabel = .error e) :
    readBuiltImage lib img id = (BuiltImage.zero, none) := by
  simp only [readBuiltImage, h]

/-- When every step succeeds, `readBuiltImage` assembles the record. -/
theorem readBuiltImage_of_steps (lib : Lib) (img : Image) (id sid : String)
    (bm : BuildMetadata) (lm : appLayersMetadata) (created : Time) (runRef baseRef : Reference)
    (h1 : imagehelpers.GetStringLabel img platform.StackIDLabel = .ok sid)
    (h2 : imagehelpers.GetLabel lib.unmarshalBuildMetadata img platform.BuildMetadataLabel = .ok bm)
    (h3 : imagehelpers.GetLabel lib.unmarshalLayersMetadata img platform.LayerMetadataLabel
      = .ok lm)
    (h4 : imagehelpers.GetCreatedAt img = .ok created)
    (h5 : lib.ParseReference lm.RunImage.Reference = .ok runRef)
    (h6 : lib.ParseReference lm.Stack.RunImage.Image = .ok baseRef) :
    readBuiltImage lib img id =
      ({ Identifier := id, CompletedAt := created, BuildpackMetadata := bm.Buildpacks,
         Stack := { RunImage := baseRef.Context.String ++ "@" ++ runRef.Identifier,
                    ID := sid } }, none) := by
  simp only [readBuiltImage, h1, h2, h3, h4, h5, h6]

/-- A non-nil error of `readBuiltImage` comes with the zero record. -/
theorem readBuiltImage_zero_of_error (lib : Lib) (img : Image) (id : String)
    (bi : BuiltImage) (e : Error) (h : readBuiltImage lib img id = (bi, some e)) :
    bi = BuiltImage.zero := by
  unfold readBuiltImage at h
  repeat' split at h
  all_goals simp only [Prod.mk.injEq, reduceCtorEq, and_false] at h
  all_goals exact h.1.symm

/-! ## C1 – C6: `readBuiltImage` and `GetBuiltImage` -/

/-- C1 (counterexample): the sample image that is missing only the stack-ID
label (build metadata, layer metadata and creation time are all readable) is
decoded to the zero record with a nil error: the identifier, the completion
time, the buildpack list and the run image are not populated. -/
theorem readBuiltImage_missing_stack_id_not_populated :
    (∃ e, imagehelpers.GetStringLabel sampleImageNoStackID platform.StackIDLabel = .error e) ∧
    imagehelpers.GetLabel sampleLib.unmarshalBuildMetadata sampleImageNoStackID
      platform.BuildMetadataLabel = .ok sampleBuildMetadata ∧
    imagehelpers.GetLabel sampleLib.unmarshalLayersMetadata sampleImageNoStackID
      platform.LayerMetadataLabel = .ok sampleLayersMetadata ∧
    imagehelpers.GetCreatedAt sampleImageNoStackID = .ok sampleCreated ∧
    readBuiltImage sampleLib sampleImageNoStackID sampleAppImageId = (BuiltImage.zero, none) ∧
    (readBuiltImage sampleLib sampleImageNoStackID sampleAppImageId).1.Identifier
      ≠ sampleAppImageId ∧
    (readBuiltImage sampleLib sampleImageNoStackID sampleAppImageId).1.CompletedAt
      ≠ sampleCreated ∧
    (readBuiltImage sampleLib sampleImageNoStackID sampleAppImageId).1.BuildpackMetadata
      ≠ sampleBuildMetadata.Buildpacks ∧
    (readBuiltImage sampleLib sampleImageNoStackID sampleAppImageId).1.Stack.RunImage
      ≠ sampleRunImageDigestRef := by
  refine ⟨⟨_, rfl⟩, rfl, rfl, rfl, rfl, ?_, ?_, ?_, ?_⟩ <;> decide

/-- C1 (amended): for every application image whose stack-ID label cannot be
read, whatever its other labels, `readBuiltImage` returns the nil error and the
zero record: the stack ID is empty, and so are the identifier, the completion
time, the buildpack list and the run image. -/
theorem readBuiltImage_missing_stack_id (lib : Lib) (img : Image) (id : String) (e : Error)
    (h : imagehelpers.GetStringLabel img platform.StackIDLabel = .error e) :
    (readBuiltImage lib img id).2 = none ∧
    (readBuiltImage lib img id).1.Stack.ID = "" ∧
    (readBuiltImage lib img id).1.Identifier = "" ∧
    (readBuiltImage lib img id).1.CompletedAt = Time.zero ∧
    (readBuiltImage lib img id).1.BuildpackMetadata = none ∧
    (readBuiltImage lib img id).1.Stack.RunImage = "" ∧
    (readBuiltImage lib img id).1 = BuiltImage.zero := by
  rw [readBuiltImage_of_stack_id_error lib img id e h]
  exact ⟨rfl, rfl, rfl, rfl, rfl, rfl, rfl⟩

/-- C1 (witness): the amended statement at the sample image without a stack-ID label. -/
theorem readBuiltImage_missing_stack_id_witness :
    (readBuiltImage sampleLib sampleImageNoStackID sampleAppImageId).2 = none ∧
    (readBuiltImage sampleLib sampleImageNoStackID sampleAppImageId).1 = BuiltImage.zero :=
  have h := readBuiltImage_missing_stack_id sampleLib sampleImageNoStackID sampleAppImageId
    (Error.new ("could not find label " ++ platform.StackIDLabel)) rfl
  ⟨h.1, h.2.2.2.2.2.2⟩

/-- C2 (counterexample): the sample image that carries neither the stack-ID
label nor the build-metadata label is decoded with a nil error, and
`GetBuiltImage` on a build whose destination tag serves that image returns a nil
error too. -/
theorem readBuiltImage_missing_build_metadata_nil_error :
    (∃ e, imagehelpers.GetLabel sampleLib.unmarshalBuildMetadata sampleImageLayersOnly
      platform.BuildMetadataLabel = .error e) ∧
    readBuiltImage sampleLib sampleImageLayersOnly sampleAppImageId = (BuiltImage.zero, none) ∧
    ((sampleRetriever sampleImageLayersOnly).GetBuiltImage sampleLib sampleBuild).result
      = some (BuiltImage.zero, none) :=
  ⟨⟨_, rfl⟩, rfl, rfl⟩

/-- C2 (amended): for every application image whose stack-ID label is readable
and whose build-metadata label or layer-metadata label is missing or cannot be
decoded, `readBuiltImage` returns a non-nil error, and so does `GetBuiltImage`
on every build whose fetch yields that image. -/
theorem readBuiltImage_strict_label_error (lib : Lib) (img : Image) (id sid : String)
    (hs : imagehelpers.GetStringLabel img platform.StackIDLabel = .ok sid)
    (hl : (∃ e, imagehelpers.GetLabel lib.unmarshalBuildMetadata img
              platform.BuildMetadataLabel = .error e) ∨
          (∃ e, imagehelpers.GetLabel lib.unmarshalLayersMetadata img
              platform.LayerMetadataLabel = .error e)) :
    (∃ e, readBuiltImage lib img id = (BuiltImage.zero, some e)) ∧
    ∀ (r : RemoteMetadataRetriever) (build : Build) (kc : Keychain) (tag : String),
      r.KeychainFactory ⟨build.Spec.ServiceAccountName, build.Namespace⟩ = .ok kc →
      build.Tag = some tag →
      r.ImageFetcher kc tag = .ok (img, id) →
      ∃ e, (r.GetBuiltImage lib build).result = some (BuiltImage.zero, some e) := by
  have key : ∃ e, readBuiltImage lib img id = (BuiltImage.zero, some e) := by
    rcases hl with ⟨e, he⟩ | ⟨e, he⟩
    · exact ⟨e, by simp only [readBuiltImage, hs, he]⟩
    · cases hb : imagehelpers.GetLabel lib.unmarshalBuildMetadata img
        platform.BuildMetadataLabel with
      | error e2 => exact ⟨e2, by simp only [readBuiltImage, hs, hb]⟩
      | ok bm => exact ⟨e, by simp only [readBuiltImage, hs, hb, he]⟩
  refine ⟨key, ?_⟩
  intro r build kc tag hk ht hf
  obtain ⟨e, he⟩ := key
  exact ⟨e, by simp only [RemoteMetadataRetriever.GetBuiltImage, hk, ht, hf, he]⟩

/-- C2 (witness): the amended statement at the sample image that has a stack-ID
label and no build-metadata label. -/
theorem readBuiltImage_strict_label_error_witness :
    ∃ e, readBuiltImage sampleLib sampleImageNoBuildMetadata sampleAppImageId
      = (BuiltImage.zero, some e) :=
  (readBuiltImage_strict_label_error sampleLib sampleImageNoBuildMetadata sampleAppImageId
    "io.buildpacks.stacks.bionic" rfl (Or.inl ⟨_, rfl⟩)).1

/-- C3 (counterexample): on the sample image whose recorded run-image reference
is the tag reference `myregistry.io/run:latest`, `readBuiltImage` succeeds with a
non-zero record whose `Stack.RunImage` is `myregistry.io/run@latest`: the part
after `@` is the mutable tag, which is not a digest. -/
theorem readBuiltImage_tag_run_image_keeps_tag :
    name.ParseReference "myregistry.io/run:latest"
      = .ok (Reference.tag ⟨⟨⟨"myregistry.io"⟩, "run"⟩, "latest"⟩) ∧
    (readBuiltImage sampleLib sampleImageTagRunImage sampleAppImageId).2 = none ∧
    (readBuiltImage sampleLib sampleImageTagRunImage sampleAppImageId).1 ≠ BuiltImage.zero ∧
    (readBuiltImage sampleLib sampleImageTagRunImage sampleAppImageId).1.Stack.RunImage
      = "myregistry.io/run" ++ "@" ++ "latest" ∧
    (name.checkDigest "latest".toList).isSome = true := by
  refine ⟨rfl, rfl, ?_, rfl, rfl⟩
  decide

/-- C3 (amended): for every application image on which `readBuiltImage` succeeds
with a non-zero record, `Stack.RunImage` has the form `repository@identifier`:
the repository is that of the stack run-image reference, and the identifier is
the digest when the recorded run-image reference is a digest reference and the
tag when it is a tag reference. -/
theorem readBuiltImage_run_image_form (lib : Lib) (img : Image) (id : String) (bi : BuiltImage)
    (h : readBuiltImage lib img id = (bi, none)) (hz : bi ≠ BuiltImage.zero) :
    ∃ (lm : appLayersMetadata) (runRef baseRef : Reference),
      imagehelpers.GetLabel lib.unmarshalLayersMetadata img platform.LayerMetadataLabel
        = .ok lm ∧
      lib.ParseReference lm.RunImage.Reference = .ok runRef ∧
      lib.ParseReference lm.Stack.RunImage.Image = .ok baseRef ∧
      bi.Stack.RunImage = baseRef.Context.String ++ "@" ++
        (match runRef with
         | .digest d => d.digest
         | .tag t => t.tag) := by
  cases h1 : imagehelpers.GetStringLabel img platform.StackIDLabel with
  | error e =>
    rw [readBuiltImage_of_stack_id_error lib img id e h1] at h
    exact absurd (Prod.mk.inj h).1.symm hz
  | ok sid =>
    cases h2 : imagehelpers.GetLabel lib.unmarshalBuildMetadata img
      platform.BuildMetadataLabel with
    | error e => simp [readBuiltImage, h1, h2] at h
    | ok bm =>
      cases h3 : imagehelpers.GetLabel lib.unmarshalLayersMetadata img
        platform.LayerMetadataLabel with
      | error e => simp [readBuiltImage, h1, h2, h3] at h
      | ok lm =>
        cases h4 : imagehelpers.GetCreatedAt img with
        | error e => simp [readBuiltImage, h1, h2, h3, h4] at h
        | ok created =>
          cases h5 : lib.ParseReference lm.RunImage.Reference with
          | error e => simp [readBuiltImage, h1, h2, h3, h4, h5] at h
          | ok runRef =>
            cases h6 : lib.ParseReference lm.Stack.RunImage.Image with
            | error e => simp [readBuiltImage, h1, h2, h3, h4, h5, h6] at h
            | ok baseRef =>
              rw [readBuiltImage_of_steps lib img id sid bm lm created runRef baseRef
                h1 h2 h3 h4 h5 h6] at h
              refine ⟨lm, runRef, baseRef, rfl, h5, h6, ?_⟩
              rw [← (Prod.mk.inj h).1]
              cases runRef <;> rfl

/-- C3 (witness): the amended statement at the sample image with a tag run-image
reference. -/
theorem readBuiltImage_run_image_form_witness :
    ∃ (lm : appLayersMetadata) (runRef baseRef : Reference),
      imagehelpers.GetLabel sampleLib.unmarshalLayersMetadata sampleImageTagRunImage
        platform.LayerMetadataLabel = .ok lm ∧
      sampleLib.ParseReference lm.RunImage.Reference = .ok runRef ∧
      sampleLib.ParseReference lm.Stack.RunImage.Image = .ok baseRef ∧
      (readBuiltImage sampleLib sampleImageTagRunImage sampleAppImageId).1.Stack.RunImage
        = baseRef.Context.String ++ "@" ++
          (match runRef with
           | .digest d => d.digest
           | .tag t => t.tag) :=
  readBuiltImage_run_image_form sampleLib sampleImageTagRunImage sampleAppImageId
    (readBuiltImage sampleLib sampleImageTagRunImage sampleAppImageId).1 rfl (by decide)

/-- C4: when the steps before the references succeed, the recorded run-image
reference parses as a digest reference with digest `d` and the stack run-image
reference parses to `baseRef`, `readBuiltImage` succeeds and sets
`Stack.RunImage` to the repository of `baseRef`, then `@`, then `d`; in
particular the reference `myregistry.io/run@sha256:0123…cdef` with stack run
image `myregistry.io/run` is given back unchanged. -/
theorem readBuiltImage_run_image_digest (lib : Lib) (img : Image) (id sid : String)
    (bm : BuildMetadata) (lm : appLayersMetadata) (created : Time) (d : Digest)
    (baseRef : Reference)
    (h1 : imagehelpers.GetStringLabel img platform.StackIDLabel = .ok sid)
    (h2 : imagehelpers.GetLabel lib.unmarshalBuildMetadata img platform.BuildMetadataLabel = .ok bm)
    (h3 : imagehelpers.GetLabel lib.unmarshalLayersMetadata img platform.LayerMetadataLabel
      = .ok lm)
    (h4 : imagehelpers.GetCreatedAt img = .ok created)
    (h5 : lib.ParseReference lm.RunImage.Reference = .ok (Reference.digest d))
    (h6 : lib.ParseReference lm.Stack.RunImage.Image = .ok baseRef) :
    ((readBuiltImage lib img id).2 = none ∧
     (readBuiltImage lib img id).1.Stack.RunImage = baseRef.Context.String ++ "@" ++ d.digest) ∧
    (name.ParseReference
        "myregistry.io/run@sha256:0123456789abcdef0123456789abcdef0123456789abcdef0123456789abcdef"
      = .ok (Reference.digest ⟨⟨⟨"myregistry.io"⟩, "run"⟩,
          "sha256:0123456789abcdef0123456789abcdef0123456789abcdef0123456789abcdef"⟩) ∧
     (name.ParseReference "myregistry.io/run").map (fun r => r.Context.String)
      = .ok "myregistry.io/run" ∧
     (readBuiltImage sampleLib sampleImage sampleAppImageId).1.Stack.RunImage
      = "myregistry.io/run@sha256:0123456789abcdef0123456789abcdef0123456789abcdef0123456789abcdef") := by
  rw [readBuiltImage_of_steps lib img id sid bm lm created (Reference.digest d) baseRef
    h1 h2 h3 h4 h5 h6]
  exact ⟨⟨rfl, rfl⟩, rfl, rfl, rfl⟩

/-- C4 (witness): the statement at the sample image, whose layer metadata records
`myregistry.io/run@sha256:0123…cdef` over the stack run image `myregistry.io/run`. -/
theorem readBuiltImage_run_image_digest_witness :
    (readBuiltImage sampleLib sampleImage sampleAppImageId).2 = none ∧
    (readBuiltImage sampleLib sampleImage sampleAppImageId).1.Stack.RunImage
      = "myregistry.io/run" ++ "@" ++
        "sha256:0123456789abcdef0123456789abcdef0123456789abcdef0123456789abcdef" :=
  (readBuiltImage_run_image_digest sampleLib sampleImage sampleAppImageId
    "io.buildpacks.stacks.bionic" sampleBuildMetadata sampleLayersMetadata sampleCreated
    ⟨⟨⟨"myregistry.io"⟩, "run"⟩,
      "sha256:0123456789abcdef0123456789abcdef0123456789abcdef0123456789abcdef"⟩
    (Reference.tag ⟨⟨⟨"myregistry.io"⟩, "run"⟩, "latest"⟩) rfl rfl rfl rfl rfl rfl).1

/-- C5: for a build whose keychain resolves and whose destination tag is fetched
as image `img` with identifier `id`, when `img` carries the three labels (the two
documents decode), has a readable configuration and both run-image references
parse, `GetBuiltImage` returns the nil error and a record whose identifier is
`id`, whose completion time is the creation time of the image, whose buildpack
list is that of the build-metadata document, and whose stack ID is the value of
the stack-ID label. -/
theorem GetBuiltImage_populated (lib : Lib) (r : RemoteMetadataRetriever) (build : Build)
    (kc : Keychain) (tag id sid bdoc ldoc : String) (img : Image) (cfg : ConfigFile)
    (bm : BuildMetadata) (lm : appLayersMetadata) (runRef baseRef : Reference)
    (hk : r.KeychainFactory ⟨build.Spec.ServiceAccountName, build.Namespace⟩ = .ok kc)
    (ht : build.Tag = some tag)
    (hf : r.ImageFetcher kc tag = .ok (img, id))
    (hc : img.ConfigFile = .ok cfg)
    (hs : cfg.Labels.lookup platform.StackIDLabel = some sid)
    (hb : cfg.Labels.lookup platform.BuildMetadataLabel = some bdoc)
    (hl : cfg.Labels.lookup platform.LayerMetadataLabel = some ldoc)
    (hbd : lib.unmarshalBuildMetadata bdoc = .ok bm)
    (hld : lib.unmarshalLayersMetadata ldoc = .ok lm)
    (h5 : lib.ParseReference lm.RunImage.Reference = .ok runRef)
    (h6 : lib.ParseReference lm.Stack.RunImage.Image = .ok baseRef) :
    ∃ bi, (r.GetBuiltImage lib build).result = some (bi, none) ∧
      bi.Identifier = id ∧ bi.CompletedAt = cfg.Created ∧
      bi.BuildpackMetadata = bm.Buildpacks ∧ bi.Stack.ID = sid := by
  have h1 : imagehelpers.GetStringLabel img platform.StackIDLabel = .ok sid := by
    simp only [imagehelpers.GetStringLabel, hc, hs]
  have h2 : imagehelpers.GetLabel lib.unmarshalBuildMetadata img platform.BuildMetadataLabel
      = .ok bm := by
    simp only [imagehelpers.GetLabel, imagehelpers.GetStringLabel, hc, hb, hbd]
  have h3 : imagehelpers.GetLabel lib.unmarshalLayersMetadata img platform.LayerMetadataLabel
      = .ok lm := by
    simp only [imagehelpers.GetLabel, imagehelpers.GetStringLabel, hc, hl, hld]
  have h4 : imagehelpers.GetCreatedAt img = .ok cfg.Created := by
    simp only [imagehelpers.GetCreatedAt, hc]
  refine ⟨{ Identifier := id, CompletedAt := cfg.Created, BuildpackMetadata := bm.Buildpacks,
             Stack := { RunImage := baseRef.Context.String ++ "@" ++ runRef.Identifier,
                        ID := sid } }, ?_, rfl, rfl, rfl, rfl⟩
  simp only [RemoteMetadataRetriever.GetBuiltImage, hk, ht, hf]
  rw [readBuiltImage_of_steps lib img id sid bm lm cfg.Created runRef baseRef h1 h2 h3 h4 h5 h6]

/-- C5 (witness): the statement at the sample build and the sample image. -/
theorem GetBuiltImage_populated_witness :
    ∃ bi, ((sampleRetriever sampleImage).GetBuiltImage sampleLib sampleBuild).result
        = some (bi, none) ∧
      bi.Identifier = sampleAppImageId ∧ bi.CompletedAt = sampleCreated ∧
      bi.BuildpackMetadata
        = some [⟨"paketo/go", "1.2.3", "https://paketo.io"⟩, ⟨"paketo/ca", "3.0.1", ""⟩] ∧
      bi.Stack.ID = "io.buildpacks.stacks.bionic" :=
  GetBuiltImage_populated sampleLib (sampleRetriever sampleImage) sampleBuild sampleKeychain
    "myregistry.io/app:v1" sampleAppImageId "io.buildpacks.stacks.bionic" sampleBuildDoc
    sampleLayersDoc sampleImage
    { Created := sampleCreated,
      Labels := [(platform.StackIDLabel, "io.buildpacks.stacks.bionic"),
                 (platform.BuildMetadataLabel, sampleBuildDoc),
                 (platform.LayerMetadataLabel, sampleLayersDoc)] }
    sampleBuildMetadata sampleLayersMetadata
    (Reference.digest ⟨⟨⟨"myregistry.io"⟩, "run"⟩,
      "sha256:0123456789abcdef0123456789abcdef0123456789abcdef0123456789abcdef"⟩)
    (Reference.tag ⟨⟨⟨"myregistry.io"⟩, "run"⟩, "latest"⟩)
    rfl rfl rfl rfl rfl rfl rfl rfl rfl rfl rfl

/-- C6: whenever `GetBuiltImage` or `readBuiltImage` returns a non-nil error,
whatever step failed, the record returned with it is the zero value. -/
theorem error_comes_with_zero_BuiltImage (lib : Lib) (r : RemoteMetadataRetriever)
    (build : Build) (img : Image) (id : String) :
    (∀ (bi : BuiltImage) (e : Error),
      (r.GetBuiltImage lib build).result = some (bi, some e) → bi = BuiltImage.zero) ∧
    (∀ (bi : BuiltImage) (e : Error),
      readBuiltImage lib img id = (bi, some e) → bi = BuiltImage.zero) := by
  refine ⟨?_, fun bi e h => readBuiltImage_zero_of_error lib img id bi e h⟩
  intro bi e h
  unfold RemoteMetadataRetriever.GetBuiltImage at h
  cases hk : r.KeychainFactory ⟨build.Spec.ServiceAccountName, build.Namespace⟩ with
  | error err =>
    simp only [hk, Option.some.injEq, Prod.mk.injEq] at h
    exact h.1.symm
  | ok kc =>
    cases ht : build.Tag with
    | none => simp [hk, ht] at h
    | some tag =>
      cases hf : r.ImageFetcher kc tag with
      | error err =>
        simp only [hk, ht, hf, Option.some.injEq, Prod.mk.injEq] at h
        exact h.1.symm
      | ok p =>
        obtain ⟨appImage, appImageId⟩ := p
        simp only [hk, ht, hf, Option.some.injEq] at h
        exact readBuiltImage_zero_of_error lib appImage appImageId bi e h

/-- C6 (witness): the statement at a failing keychain factory, a failing fetch and
an image without build metadata. -/
theorem error_comes_with_zero_BuiltImage_witness :
    (sampleRetrieverNoFetch.GetBuiltImage sampleLib sampleBuild).result
      = some (BuiltImage.zero,
          some (Error.wrap (Error.new "image not found") "unable to fetch app image")) ∧
    readBuiltImage sampleLib sampleImageNoBuildMetadata sampleAppImageId
      = (BuiltImage.zero,
          some (Error.new "could not find label io.buildpacks.build.metadata")) ∧
    BuiltImage.zero = BuiltImage.zero ∧ BuiltImage.zero = BuiltImage.zero :=
  ⟨rfl, rfl,
   (error_comes_with_zero_BuiltImage sampleLib sampleRetrieverNoFetch sampleBuild
      sampleImageNoBuildMetadata sampleAppImageId).1 BuiltImage.zero _ rfl,
   (error_comes_with_zero_BuiltImage sampleLib sampleRetrieverNoFetch sampleBuild
      sampleImageNoBuildMetadata sampleAppImageId).2 BuiltImage.zero _ rfl⟩

/-! ## C7 – C10: `GetCacheImage` and the calls to the collaborators -/

/-- C7: for every build that needs no registry cache (in particular one without
a cache configuration, or with a volume cache only), `GetCacheImage` returns the
empty identifier and the nil error, and makes no call to the keychain factory
or to the image fetcher. -/
theorem GetCacheImage_without_registry_cache (r : RemoteMetadataRetriever) (build : Build) :
    (build.Spec.NeedRegistryCache = false →
      r.GetCacheImage build = { calls := [], result := some ("", none) }) ∧
    (build.Spec.Cache = none → build.Spec.NeedRegistryCache = false) ∧
    (∀ c : BuildCacheConfig, build.Spec.Cache = some c → c.Registry = none →
      build.Spec.NeedRegistryCache = false) := by
  refine ⟨?_, ?_, ?_⟩
  · intro h
    simp only [RemoteMetadataRetriever.GetCacheImage, h, Bool.not_false, if_true]
  · intro h
    simp only [BuildSpec.NeedRegistryCache, h]
  · intro c hc hr
    simp only [BuildSpec.NeedRegistryCache, hc, hr, Option.isSome_none]

/-- C7 (witness): the statement at the sample build with a volume cache only. -/
theorem GetCacheImage_without_registry_cache_witness :
    (sampleRetriever sampleImage).GetCacheImage sampleBuildVolumeCache
      = { calls := [], result := some ("", none) } :=
  (GetCacheImage_without_registry_cache (sampleRetriever sampleImage)
    sampleBuildVolumeCache).1 rfl

/-- C8: for every build that declares a registry cache `reg` and whose keychain
resolves to `kc`, `GetCacheImage` makes exactly one fetch, at `reg.Tag` under
`kc`; when the fetch succeeds with identifier `id` it returns `id` and the nil
error, whatever the image fetched, and when the fetch fails it returns the empty
identifier and a non-nil error. -/
theorem GetCacheImage_with_registry_cache (r : RemoteMetadataRetriever) (build : Build)
    (kc : Keychain) (c : BuildCacheConfig) (reg : RegistryCache)
    (hn : build.Spec.NeedRegistryCache = true)
    (hc : build.Spec.Cache = some c) (hr : c.Registry = some reg)
    (hk : r.KeychainFactory ⟨build.Spec.ServiceAccountName, build.Namespace⟩ = .ok kc) :
    (r.GetCacheImage build).calls
      = [Call.KeychainForSecretRef ⟨build.Spec.ServiceAccountName, build.Namespace⟩,
         Call.Fetch kc reg.Tag] ∧
    (∀ (img : Image) (id : String), r.ImageFetcher kc reg.Tag = .ok (img, id) →
      (r.GetCacheImage build).result = some (id, none)) ∧
    (∀ e : Error, r.ImageFetcher kc reg.Tag = .error e →
      ∃ e2, (r.GetCacheImage build).result = some ("", some e2)) := by
  have hb : build.Spec.Cache.bind (fun c => c.Registry) = some reg := by
    simp only [hc, Option.some_bind, hr]
  refine ⟨?_, ?_, ?_⟩
  · cases hf : r.ImageFetcher kc reg.Tag with
    | error e =>
      simp only [RemoteMetadataRetriever.GetCacheImage, hn, hk, hb, hf, Bool.not_true,
        Bool.false_eq_true, if_false]
    | ok p =>
      simp only [RemoteMetadataRetriever.GetCacheImage, hn, hk, hb, hf, Bool.not_true,
        Bool.false_eq_true, if_false]
  · intro img id hf
    simp only [RemoteMetadataRetriever.GetCacheImage, hn, hk, hb, hf, Bool.not_true,
      Bool.false_eq_true, if_false]
  · intro e hf
    exact ⟨errors.Wrap e "unable to fetch cache image", by
      simp only [RemoteMetadataRetriever.GetCacheImage, hn, hk, hb, hf, Bool.not_true,
        Bool.false_eq_true, if_false]⟩

/-- C8 (witness): the statement at the sample build, whose cache tag is served. -/
theorem GetCacheImage_with_registry_cache_witness :
    ((sampleRetriever sampleImage).GetCacheImage sampleBuild).calls
      = [Call.KeychainForSecretRef ⟨"builder-sa", "team-a"⟩,
         Call.Fetch sampleKeychain "myregistry.io/app-cache"] ∧
    ((sampleRetriever sampleImage).GetCacheImage sampleBuild).result
      = some (sampleCacheImageId, none) :=
  have h := GetCacheImage_with_registry_cache (sampleRetriever sampleImage) sampleBuild
    sampleKeychain { Volume := none, Registry := some { Tag := "myregistry.io/app-cache" } }
    { Tag := "myregistry.io/app-cache" } rfl rfl rfl rfl
  ⟨h.1, h.2.1 sampleImageLayersOnly sampleCacheImageId rfl⟩

/-- C9: `GetBuiltImage` first requests the keychain for the pair (service account
of the build spec, namespace of the build) and makes no other keychain request;
its fetch, when the keychain resolves, follows, with the keychain returned and
at `build.Tag()`.  `GetCacheImage`, when a registry cache is needed, requests
the keychain for the same pair and fetches with the keychain returned. -/
theorem keychain_request_then_fetch (lib : Lib) (r : RemoteMetadataRetriever) (build : Build) :
    (r.GetBuiltImage lib build).calls
      = Call.KeychainForSecretRef ⟨build.Spec.ServiceAccountName, build.Namespace⟩ ::
        (match r.KeychainFactory ⟨build.Spec.ServiceAccountName, build.Namespace⟩, build.Tag with
         | .ok kc, some tag => [Call.Fetch kc tag]
         | _, _ => []) ∧
    (build.Spec.NeedRegistryCache = true →
      (r.GetCacheImage build).calls
        = Call.KeychainForSecretRef ⟨build.Spec.ServiceAccountName, build.Namespace⟩ ::
          (match r.KeychainFactory ⟨build.Spec.ServiceAccountName, build.Namespace⟩,
              build.Spec.Cache.bind (fun c => c.Registry) with
           | .ok kc, some reg => [Call.Fetch kc reg.Tag]
           | _, _ => [])) := by
  constructor
  · cases hk : r.KeychainFactory ⟨build.Spec.ServiceAccountName, build.Namespace⟩ with
    | error e => simp only [RemoteMetadataRetriever.GetBuiltImage, hk]
    | ok kc =>
      cases ht : build.Tag with
      | none => simp only [RemoteMetadataRetriever.GetBuiltImage, hk, ht]
      | some tag =>
        cases hf : r.ImageFetcher kc tag with
        | error e => simp only [RemoteMetadataRetriever.GetBuiltImage, hk, ht, hf]
        | ok p => simp only [RemoteMetadataRetriever.GetBuiltImage, hk, ht, hf]
  · intro hn
    cases hk : r.KeychainFactory ⟨build.Spec.ServiceAccountName, build.Namespace⟩ with
    | error e =>
      simp only [RemoteMetadataRetriever.GetCacheImage, hn, hk, Bool.not_true,
        Bool.false_eq_true, if_false]
    | ok kc =>
      cases hb : build.Spec.Cache.bind (fun c => c.Registry) with
      | none =>
        simp only [RemoteMetadataRetriever.GetCacheImage, hn, hk, hb, Bool.not_true,
          Bool.false_eq_true, if_false]
      | some reg =>
        cases hf : r.ImageFetcher kc reg.Tag with
        | error e =>
          simp only [RemoteMetadataRetriever.GetCacheImage, hn, hk, hb, hf, Bool.not_true,
            Bool.false_eq_true, if_false]
        | ok p =>
          simp only [RemoteMetadataRetriever.GetCacheImage, hn, hk, hb, hf, Bool.not_true,
            Bool.false_eq_true, if_false]

/-- C9 (witness): the calls made for the sample build. -/
theorem keychain_request_then_fetch_witness :
    ((sampleRetriever sampleImage).GetBuiltImage sampleLib sampleBuild).calls
      = [Call.KeychainForSecretRef ⟨"builder-sa", "team-a"⟩,
         Call.Fetch sampleKeychain "myregistry.io/app:v1"] ∧
    ((sampleRetriever sampleImage).GetCacheImage sampleBuild).calls
      = [Call.KeychainForSecretRef ⟨"builder-sa", "team-a"⟩,
         Call.Fetch sampleKeychain "myregistry.io/app-cache"] :=
  ⟨(keychain_request_then_fetch sampleLib (sampleRetriever sampleImage) sampleBuild).1,
   (keychain_request_then_fetch sampleLib (sampleRetriever sampleImage) sampleBuild).2 rfl⟩

/-- C10: when the keychain factory fails for the service account and namespace
of the build, `GetBuiltImage` returns a non-nil error with the zero record,
`GetCacheImage` (registry cache needed) returns a non-nil error with the empty
identifier, and neither makes a call to the image fetcher. -/
theorem keychain_failure_stops_before_fetch (lib : Lib) (r : RemoteMetadataRetriever)
    (build : Build) (e : Error)
    (hk : r.KeychainFactory ⟨build.Spec.ServiceAccountName, build.Namespace⟩ = .error e) :
    ((∃ e2, (r.GetBuiltImage lib build).result = some (BuiltImage.zero, some e2)) ∧
     ∀ (kc : Keychain) (repoName : String),
       Call.Fetch kc repoName ∉ (r.GetBuiltImage lib build).calls) ∧
    (build.Spec.NeedRegistryCache = true →
      (∃ e2, (r.GetCacheImage build).result = some ("", some e2)) ∧
      ∀ (kc : Keychain) (repoName : String),
        Call.Fetch kc repoName ∉ (r.GetCacheImage build).calls) := by
  constructor
  · simp only [RemoteMetadataRetriever.GetBuiltImage, hk]
    exact ⟨⟨_, rfl⟩, fun kc repoName h => by simp at h⟩
  · intro hn
    simp only [RemoteMetadataRetriever.GetCacheImage, hn, hk, Bool.not_true,
      Bool.false_eq_true, if_false]
    exact ⟨⟨_, rfl⟩, fun kc repoName h => by simp at h⟩

/-- C10 (witness): the statement at the sample build and a keychain factory that
fails. -/
theorem keychain_failure_stops_before_fetch_witness :
    (sampleRetrieverNoKeychain.GetBuiltImage sampleLib sampleBuild).calls
      = [Call.KeychainForSecretRef ⟨"builder-sa", "team-a"⟩] ∧
    (∃ e2, (sampleRetrieverNoKeychain.GetBuiltImage sampleLib sampleBuild).result
      = some (BuiltImage.zero, some e2)) ∧
    (∃ e2, (sampleRetrieverNoKeychain.GetCacheImage sampleBuild).result
      = some ("", some e2)) :=
  have h := keychain_failure_stops_before_fetch sampleLib sampleRetrieverNoKeychain sampleBuild
    (Error.new "serviceaccount not found") rfl
  ⟨rfl, h.1.1, (h.2 rfl).1⟩

/-! ## Shared lemmas on files, `classifyFile` and `downloadBlob` -/

/-- Taking the next outcome changes neither name, bytes nor offset. -/
theorem File.nextFault_frame (f : File) :
    f.nextFault.2.name = f.name ∧ f.nextFault.2.data = f.data ∧
    f.nextFault.2.offset = f.offset := by
  unfold File.nextFault
  cases f.faults <;> exact ⟨rfl, rfl, rfl⟩

/-- A successful `Read` of `n > 0` bytes gives the next `n` bytes (fewer at the
end of the stream, but at least one), and changes only the offset. -/
theorem File.Read_ok (f f2 : File) (n : Nat) (bs : List Byte) (hn : 0 < n)
    (h : f.Read n = ((bs, none), f2)) :
    bs = (f.data.drop f.offset).take n ∧ f.offset < f.data.length ∧
    f2.name = f.name ∧ f2.data = f.data := by
  unfold File.Read at h
  obtain ⟨h1, h2, h3⟩ := File.nextFault_frame f
  cases hf : f.nextFault with
  | mk o g =>
    rw [hf] at h h1 h2 h3
    simp only at h1 h2 h3
    cases o with
    | some err => simp at h
    | none =>
      simp only at h
      have hn0 : n ≠ 0 := Nat.pos_iff_ne_zero.mp hn
      simp only [hn0, if_false] at h
      by_cases hlen : g.data.length ≤ g.offset
      · simp [hlen] at h
      · simp only [hlen, if_false, Prod.mk.injEq, and_true] at h
        obtain ⟨hbs, hg⟩ := h
        subst hg
        refine ⟨?_, ?_, h1, h2⟩
        · rw [← hbs, h2, h3]
        · rw [← h2, ← h3]; omega

/-- A successful `Seek(0, 0)` puts the offset at 0 and changes nothing else. -/
theorem File.Seek_start_ok (f f2 : File) (n : Int) (h : f.Seek 0 0 = ((n, none), f2)) :
    f2.offset = 0 ∧ f2.name = f.name ∧ f2.data = f.data := by
  unfold File.Seek at h
  obtain ⟨h1, h2, _⟩ := File.nextFault_frame f
  cases hf : f.nextFault with
  | mk o g =>
    rw [hf] at h h1 h2
    simp only at h1 h2
    cases o with
    | some err => simp at h
    | none =>
      simp at h
      obtain ⟨_, hg⟩ := h
      subst hg
      exact ⟨rfl, h1, h2⟩

/-- `Stat` changes neither name nor bytes, and reports the number of bytes. -/
theorem File.Stat_ok (f f2 : File) (info : FileInfo) (h : f.Stat = (.ok info, f2)) :
    info.Size = (f.data.length : Int) ∧ f2.name = f.name ∧ f2.data = f.data := by
  unfold File.Stat at h
  obtain ⟨h1, h2, _⟩ := File.nextFault_frame f
  cases hf : f.nextFault with
  | mk o g =>
    rw [hf] at h h1 h2
    simp only at h1 h2
    cases o with
    | some err => simp at h
    | none =>
      simp only [Prod.mk.injEq, Except.ok.injEq] at h
      obtain ⟨hi, hg⟩ := h
      subst hg
      subst hi
      exact ⟨by rw [h2], h1, h2⟩

/-- A successful `classifyFile` leaves name and bytes alone, puts the offset at
0, and returns the content type of the 512-byte buffer: the bytes read, followed
by the zero bytes of the buffer that the read did not overwrite. -/
theorem classifyFile_ok (reader r2 : File) (mediaType : String)
    (h : classifyFile reader = ((mediaType, none), r2)) :
    r2.name = reader.name ∧ r2.data = reader.data ∧ r2.offset = 0 ∧
    reader.offset < reader.data.length ∧
    mediaType = http.DetectContentType
      ((reader.data.drop reader.offset).take 512 ++
        (List.replicate 512 0).drop ((reader.data.drop reader.offset).take 512).length) := by
  unfold classifyFile at h
  simp only [List.length_replicate] at h
  cases hr : reader.Read 512 with
  | mk res f1 =>
    obtain ⟨bs, e⟩ := res
    rw [hr] at h
    cases e with
    | some err => simp at h
    | none =>
      obtain ⟨hbs, hlt, hn1, hd1⟩ := File.Read_ok reader f1 512 bs (by decide) hr
      simp only at h
      cases hs : f1.Seek 0 0 with
      | mk res2 f3 =>
        obtain ⟨n, e2⟩ := res2
        rw [hs] at h
        cases e2 with
        | some err => simp at h
        | none =>
          obtain ⟨ho, hn3, hd3⟩ := File.Seek_start_ok f1 f3 n hs
          simp only [Prod.mk.injEq, and_true] at h
          obtain ⟨hm, hf3⟩ := h
          subst hf3
          refine ⟨by rw [hn3, hn1], by rw [hd3, hd1], ho, hlt, ?_⟩
          rw [← hm, hbs]

/-- The name `ioutil.TempFile("", "")` gives to the transient file. -/
theorem ioutil.TempFile_ok (env : Env) (file : File)
    (h : ioutil.TempFile env "" "" = .ok file) :
    file = { name := env.tempDir ++ "/" ++ "" ++ Nat.repr env.tempRandom, data := [],
             offset := 0, faults := env.tempFaults } := by
  unfold ioutil.TempFile at h
  cases he : env.tempFileErr with
  | some err => simp [he] at h
  | none =>
    simp only [he, if_true, Except.ok.injEq] at h
    exact h.symm

/-- A successful `io.Copy` into a file writes the body at its offset and changes
no name. -/
theorem io.Copy_ok (dst f2 : File) (resp : Response) (n : Int)
    (h : io.Copy dst resp = ((n, none), f2)) :
    resp.BodyErr = none ∧ f2.name = dst.name ∧
    f2.data = dst.data.take dst.offset ++ resp.Body ++
      dst.data.drop (dst.offset + resp.Body.length) := by
  unfold io.Copy at h
  obtain ⟨h1, h2, h3⟩ := File.nextFault_frame dst
  cases hf : dst.nextFault with
  | mk o g =>
    rw [hf] at h h1 h2 h3
    simp only at h1 h2 h3
    cases o with
    | some err => simp at h
    | none =>
      simp only [Prod.mk.injEq] at h
      obtain ⟨⟨_, hb⟩, hg⟩ := h
      subst hg
      exact ⟨hb, h1, by simp only [h2, h3]⟩

/-- When `downloadBlob` succeeds, the URL parses, the response has status 200
and a body that ends cleanly, and the file returned is the transient file, with
the body as its bytes and its offset at the start; it exists on return. -/
theorem downloadBlob_ok (env : Env) (blobURL : String) (file : File)
    (events : List Event) (files : List String)
    (h : downloadBlob env blobURL = (.ok file, events, files)) :
    ∃ (u : URL) (resp : Response),
      env.urlParse blobURL = .ok u ∧ http.Get env blobURL = .ok resp ∧
      resp.StatusCode = 200 ∧ resp.BodyErr = none ∧
      file.name = env.tempDir ++ "/" ++ "" ++ Nat.repr env.tempRandom ∧
      file.data = resp.Body ∧ file.offset = 0 ∧
      events = [Event.Get blobURL, Event.TempFile file.name] ∧ files = [file.name] := by
  unfold downloadBlob at h
  cases hg : http.Get env blobURL with
  | error err => simp [hg] at h
  | ok resp =>
    have hu : ∃ u, env.urlParse blobURL = .ok u := by
      unfold http.Get at hg
      cases hp : env.urlParse blobURL with
      | error e => simp [hp] at hg
      | ok u => exact ⟨u, rfl⟩
    obtain ⟨u, hu⟩ := hu
    simp only [hg] at h
    by_cases hs : resp.StatusCode = 200
    · simp only [hs, ne_eq, not_true_eq_false, if_false] at h
      cases ht : ioutil.TempFile env "" "" with
      | error err => simp [ht] at h
      | ok f0 =>
        have hf0 := ioutil.TempFile_ok env f0 ht
        simp only [ht] at h
        cases hc : io.Copy f0 resp with
        | mk res f1 =>
          obtain ⟨n, e⟩ := res
          rw [hc] at h
          cases e with
          | some err => simp at h
          | none =>
            obtain ⟨hbe, hn1, hd1⟩ := io.Copy_ok f0 f1 resp n hc
            simp only at h
            cases hk : f1.Seek 0 0 with
            | mk res2 f2 =>
              obtain ⟨m, e2⟩ := res2
              rw [hk] at h
              cases e2 with
              | some err => simp at h
              | none =>
                obtain ⟨ho, hn2, hd2⟩ := File.Seek_start_ok f1 f2 m hk
                simp only [Prod.mk.injEq, Except.ok.injEq] at h
                obtain ⟨hfile, hev, hfl⟩ := h
                subst hfile
                have hname : f2.name = f0.name := by rw [hn2, hn1]
                have hf0n : f0.name = env.tempDir ++ "/" ++ "" ++ Nat.repr env.tempRandom := by
                  rw [hf0]
                have hf0d : f0.data = [] := by rw [hf0]
                have hf0o : f0.offset = 0 := by rw [hf0]
                refine ⟨u, resp, hu, rfl, hs, hbe, by rw [hname, hf0n], ?_, ho, ?_, ?_⟩
                · rw [hd2, hd1, hf0d, hf0o]; simp
                · rw [← hev, File.Name, hname]
                · rw [← hfl, File.Name, hname]
    · simp [hs] at h

/-- A return through `Fetcher.returnDeferred` gives the error handed to it,
adds only the removal to the events, and leaves no file named like the
transient file. -/
theorem Fetcher.returnDeferred_spec (file : File) (files : List String) (err : Option Error)
    (events : List Event) :
    (Fetcher.returnDeferred file files err events).err = err ∧
    (Fetcher.returnDeferred file files err events).events
      = events ++ [Event.RemoveAll file.Name] ∧
    file.Name ∉ (Fetcher.returnDeferred file files err events).files := by
  refine ⟨rfl, rfl, ?_⟩
  simp [Fetcher.returnDeferred]

/-- After an extractor call, with a URL that parses: the error of the extractor
is returned as it is, and the success line is logged exactly when there is none. -/
theorem Fetcher.afterExtract_spec (env : Env) (dir blobURL : String) (file : File)
    (files : List String) (err : Option Error) (events : List Event) (u : URL)
    (hu : env.urlParse blobURL = .ok u) :
    (Fetcher.afterExtract env dir blobURL file files err events).err = err ∧
    (Fetcher.afterExtract env dir blobURL file files err events).events
      = events ++ (match err with
          | some _ => []
          | none => [Event.Printf "Successfully downloaded %s%s in path %q"
              [u.Host, u.Path, dir]]) ++ [Event.RemoveAll file.Name] ∧
    file.Name ∉ (Fetcher.afterExtract env dir blobURL file files err events).files := by
  cases err with
  | some e =>
    simp only [Fetcher.afterExtract, List.append_nil]
    exact Fetcher.returnDeferred_spec file files (some e) events
  | none =>
    simp only [Fetcher.afterExtract, hu]
    exact Fetcher.returnDeferred_spec file files none _

/-- The events of a failed `downloadBlob`: the request, and at most the creation
of the transient file. -/
theorem downloadBlob_error_events (env : Env) (blobURL : String) (e : Error)
    (events : List Event) (files : List String)
    (h : downloadBlob env blobURL = (.error e, events, files)) :
    events = [Event.Get blobURL] ∨ ∃ name, events = [Event.Get blobURL, Event.TempFile name] := by
  unfold downloadBlob at h
  cases hg : http.Get env blobURL with
  | error err =>
    simp only [hg, Prod.mk.injEq] at h
    exact Or.inl h.2.1.symm
  | ok resp =>
    simp only [hg] at h
    by_cases hs : resp.StatusCode = 200
    · simp only [hs, ne_eq, not_true_eq_false, if_false] at h
      cases ht : ioutil.TempFile env "" "" with
      | error err =>
        simp only [ht, Prod.mk.injEq] at h
        exact Or.inl h.2.1.symm
      | ok f0 =>
        simp only [ht] at h
        cases hc : io.Copy f0 resp with
        | mk res f1 =>
          obtain ⟨n, e1⟩ := res
          rw [hc] at h
          cases e1 with
          | some err =>
            simp only [Prod.mk.injEq] at h
            exact Or.inr ⟨_, h.2.1.symm⟩
          | none =>
            simp only at h
            cases hk : f1.Seek 0 0 with
            | mk res2 f2 =>
              obtain ⟨m, e2⟩ := res2
              rw [hk] at h
              cases e2 with
              | some err =>
                simp only [Prod.mk.injEq] at h
                exact Or.inr ⟨_, h.2.1.symm⟩
              | none => simp at h
    · simp only [ne_eq, hs, not_false_eq_true, if_true, Prod.mk.injEq] at h
      exact Or.inl h.2.1.symm

/-! ## C11 – C16: `Fetch` -/

/-- C11: for a blob that was downloaded and classified, the extractor is chosen
by the media type alone.  For `application/zip`, when the stat succeeds, the
only extractor called is the zip extractor, on the downloaded file, with the
number of bytes of the file and the destination directory; for
`application/x-gzip` the only extractor called is the gzip+tar extractor, on the
downloaded file and the destination directory.  When the extractor called
succeeds, `Fetch` returns nil. -/
theorem Fetch_dispatch_by_media_type (env : Env) (dir blobURL : String) (file file1 : File)
    (events : List Event) (files : List String) (mediaType : String)
    (hd : downloadBlob env blobURL = (.ok file, events, files))
    (hc : classifyFile file = ((mediaType, none), file1)) :
    (mediaType = "application/zip" → ∀ (info : FileInfo) (file2 : File),
      file1.Stat = (.ok info, file2) →
        info.Size = (file.data.length : Int) ∧ file2.name = file.name ∧
        file2.data = file.data ∧
        (Fetcher.Fetch env dir blobURL).events.filter Event.isExtract
          = [Event.ExtractZip file2 info.Size dir] ∧
        (env.ExtractZip file2 info.Size dir = none →
          (Fetcher.Fetch env dir blobURL).err = none)) ∧
    (mediaType = "application/x-gzip" →
        file1.name = file.name ∧ file1.data = file.data ∧
        (Fetcher.Fetch env dir blobURL).events.filter Event.isExtract
          = [Event.ExtractTarGZ file1 dir] ∧
        (env.ExtractTarGZ file1 dir = none →
          (Fetcher.Fetch env dir blobURL).err = none)) := by
  obtain ⟨u, resp, hu, _, _, _, _, _, _, hev, _⟩ :=
    downloadBlob_ok env blobURL file events files hd
  obtain ⟨hn1, hd1, _, _, _⟩ := classifyFile_ok file file1 mediaType hc
  constructor
  · intro hm info file2 hst
    subst hm
    obtain ⟨hsz, hn2, hd2⟩ := File.Stat_ok file1 file2 info hst
    have hF : Fetcher.Fetch env dir blobURL =
        Fetcher.afterExtract env dir blobURL file files none
          (events ++ [Event.classifyFile file.Name] ++ [Event.ExtractZip file2 info.Size dir]) := by
      simp only [Fetcher.Fetch, hd, hc, hst, if_true, Fetcher.errAfterZipClause]
    obtain ⟨he, hevs, _⟩ := Fetcher.afterExtract_spec env dir blobURL file files none
      (events ++ [Event.classifyFile file.Name] ++ [Event.ExtractZip file2 info.Size dir]) u hu
    refine ⟨by rw [hsz, hd1], by rw [hn2, hn1], by rw [hd2, hd1], ?_, ?_⟩
    · rw [hF, hevs, hev]
      simp [List.filter_cons, Event.isExtract]
    · intro _
      rw [hF, he]
  · intro hm
    subst hm
    have hF : Fetcher.Fetch env dir blobURL =
        Fetcher.afterExtract env dir blobURL file files (env.ExtractTarGZ file1 dir)
          (events ++ [Event.classifyFile file.Name] ++ [Event.ExtractTarGZ file1 dir]) := by
      simp only [Fetcher.Fetch, hd, hc, if_true]
      rw [if_neg (by decide)]
    obtain ⟨he, hevs, _⟩ := Fetcher.afterExtract_spec env dir blobURL file files
      (env.ExtractTarGZ file1 dir)
      (events ++ [Event.classifyFile file.Name] ++ [Event.ExtractTarGZ file1 dir]) u hu
    refine ⟨hn1, hd1, ?_, ?_⟩
    · rw [hF, hevs, hev]
      cases env.ExtractTarGZ file1 dir <;>
        simp [List.filter_cons, Event.isExtract]
    · intro hx
      rw [hF, he, hx]

/-- C11 (witness): the zip sample is handed to the zip extractor with its 122
bytes, the gzip sample to the gzip+tar extractor, and both fetches return nil. -/
theorem Fetch_dispatch_by_media_type_witness :
    ((Fetcher.Fetch sampleEnv "/workspace" "https://example.com/src/app.zip").events.filter
        Event.isExtract
      = [Event.ExtractZip ⟨"/tmp/123456789", sampleZipBody, 0, []⟩ 122 "/workspace"] ∧
     (Fetcher.Fetch sampleEnv "/workspace" "https://example.com/src/app.zip").err = none) ∧
    ((Fetcher.Fetch sampleEnv "/workspace" "https://example.com/src/app.tar.gz").events.filter
        Event.isExtract
      = [Event.ExtractTarGZ ⟨"/tmp/123456789", sampleGzipBody, 0, []⟩ "/workspace"] ∧
     (Fetcher.Fetch sampleEnv "/workspace" "https://example.com/src/app.tar.gz").err = none) :=
  have hz := (Fetch_dispatch_by_media_type sampleEnv "/workspace"
    "https://example.com/src/app.zip" ⟨"/tmp/123456789", sampleZipBody, 0, []⟩
    ⟨"/tmp/123456789", sampleZipBody, 0, []⟩
    [Event.Get "https://example.com/src/app.zip", Event.TempFile "/tmp/123456789"]
    ["/tmp/123456789"] "application/zip" rfl rfl).1 rfl ⟨122⟩
    ⟨"/tmp/123456789", sampleZipBody, 0, []⟩ rfl
  have hg := (Fetch_dispatch_by_media_type sampleEnv "/workspace"
    "https://example.com/src/app.tar.gz" ⟨"/tmp/123456789", sampleGzipBody, 0, []⟩
    ⟨"/tmp/123456789", sampleGzipBody, 0, []⟩
    [Event.Get "https://example.com/src/app.tar.gz", Event.TempFile "/tmp/123456789"]
    ["/tmp/123456789"] "application/x-gzip" rfl rfl).2 rfl
  ⟨⟨hz.2.2.2.1, hz.2.2.2.2 rfl⟩, ⟨hg.2.2.1, hg.2.2.2 rfl⟩⟩

/-- C12: for a blob that was downloaded and classified with a media type that
is neither `application/zip` nor `application/x-gzip`, nor
`application/octet-stream` on a file whose name passes `IsTar`, `Fetch` returns
the fixed error "unexpected blob file type, must be one of .zip, .tar.gz, .tar,
.jar", whatever the media type, and calls no extractor. -/
theorem Fetch_unexpected_blob_type (env : Env) (dir blobURL : String) (file file1 : File)
    (events : List Event) (files : List String) (mediaType : String)
    (hd : downloadBlob env blobURL = (.ok file, events, files))
    (hc : classifyFile file = ((mediaType, none), file1))
    (hz : mediaType ≠ "application/zip") (hg : mediaType ≠ "application/x-gzip")
    (ht : ¬ (mediaType = "application/octet-stream" ∧ env.IsTar file1.Name = true)) :
    (Fetcher.Fetch env dir blobURL).err = some unexpectedBlobTypeError ∧
    unexpectedBlobTypeError
      = Error.new "unexpected blob file type, must be one of .zip, .tar.gz, .tar, .jar" ∧
    (Fetcher.Fetch env dir blobURL).events.filter Event.isExtract = [] := by
  obtain ⟨u, resp, hu, _, _, _, _, _, _, hev, _⟩ :=
    downloadBlob_ok env blobURL file events files hd
  have hF : Fetcher.Fetch env dir blobURL =
      Fetcher.returnDeferred file files (some unexpectedBlobTypeError)
        (events ++ [Event.classifyFile file.Name]) := by
    simp only [Fetcher.Fetch, hd, hc, hz, hg, if_false]
    by_cases ho : mediaType = "application/octet-stream"
    · have hi : env.IsTar file1.Name = false := by
        cases h : env.IsTar file1.Name with
        | false => rfl
        | true => exact absurd ⟨ho, h⟩ ht
      simp only [ho, hi, if_true, Bool.not_false]
    · simp only [ho, if_false]
  refine ⟨by rw [hF]; rfl, rfl, ?_⟩
  rw [hF, (Fetcher.returnDeferred_spec _ _ _ _).2.1, hev]
  simp [List.filter_cons, Event.isExtract]

/-- C12 (witness): the plain text of 600 bytes is sniffed as text, and the fetch
fails with the fixed error without calling an extractor. -/
theorem Fetch_unexpected_blob_type_witness :
    classifyFile ⟨"/tmp/123456789", sampleLongText, 0, []⟩
      = (("text/plain; charset=utf-8", none), ⟨"/tmp/123456789", sampleLongText, 0, []⟩) ∧
    (Fetcher.Fetch sampleEnv "/workspace" "https://example.com/src/long.txt").err
      = some (Error.new "unexpected blob file type, must be one of .zip, .tar.gz, .tar, .jar") ∧
    (Fetcher.Fetch sampleEnv "/workspace" "https://example.com/src/long.txt").events.filter
      Event.isExtract = [] :=
  have h := Fetch_unexpected_blob_type sampleEnv "/workspace" "https://example.com/src/long.txt"
    ⟨"/tmp/123456789", sampleLongText, 0, []⟩ ⟨"/tmp/123456789", sampleLongText, 0, []⟩
    [Event.Get "https://example.com/src/long.txt", Event.TempFile "/tmp/123456789"]
    ["/tmp/123456789"] "text/plain; charset=utf-8" rfl rfl (by decide) (by decide) (by decide)
  ⟨rfl, h.1, h.2.2⟩

/-- C14: when the response to the GET has a status code other than 200, `Fetch`
returns the error "failed to get blob " followed by the URL, creates no
transient file and calls neither the classifier nor an extractor: the request is
its only event.  A transient file is created only after a response of status 200. -/
theorem Fetch_status_not_200 (env : Env) (dir blobURL : String) :
    (∀ resp : Response, http.Get env blobURL = .ok resp → resp.StatusCode ≠ 200 →
      Fetcher.Fetch env dir blobURL
        = { err := some (Error.new ("failed to get blob " ++ blobURL)),
            events := [Event.Get blobURL], files := [] }) ∧
    (∀ name : String, Event.TempFile name ∈ (Fetcher.Fetch env dir blobURL).events →
      ∃ resp, http.Get env blobURL = .ok resp ∧ resp.StatusCode = 200) := by
  constructor
  · intro resp hg hs
    simp only [Fetcher.Fetch, downloadBlob, hg, ne_eq, hs, not_false_eq_true, if_true,
      errors.Errorf]
  · intro name hmem
    cases hg : http.Get env blobURL with
    | error err =>
      simp [Fetcher.Fetch, downloadBlob, hg] at hmem
    | ok resp =>
      by_cases hs : resp.StatusCode = 200
      · exact ⟨resp, rfl, hs⟩
      · simp [Fetcher.Fetch, downloadBlob, hg, hs] at hmem

/-- C14 (witness): the sample URL answered with status 404. -/
theorem Fetch_status_not_200_witness :
    Fetcher.Fetch sampleEnv "/workspace" "https://example.com/src/missing.zip"
      = { err := some (Error.new "failed to get blob https://example.com/src/missing.zip"),
          events := [Event.Get "https://example.com/src/missing.zip"], files := [] } :=
  (Fetch_status_not_200 sampleEnv "/workspace" "https://example.com/src/missing.zip").1
    ⟨404, bytesOf "not found", none⟩ rfl (by decide)

/-- The success line is logged only by a `Fetch` that returns nil. -/
theorem Fetch_log_only_on_success (env : Env) (dir blobURL : String) (format : String)
    (args : List String)
    (hmem : Event.Printf format args ∈ (Fetcher.Fetch env dir blobURL).events) :
    (Fetcher.Fetch env dir blobURL).err = none := by
  cases hd : downloadBlob env blobURL with
  | mk res rest =>
    obtain ⟨events, files⟩ := rest
    cases res with
    | error e =>
      have hev := downloadBlob_error_events env blobURL e events files hd
      simp only [Fetcher.Fetch, hd] at hmem
      rcases hev with h | ⟨name, h⟩ <;> simp [h] at hmem
    | ok file =>
      obtain ⟨u, resp, hu, _, _, _, _, _, _, hev, _⟩ :=
        downloadBlob_ok env blobURL file events files hd
      have hret : ∀ (e : Error),
          Event.Printf format args ∉
            (Fetcher.returnDeferred file files (some e)
              (events ++ [Event.classifyFile file.Name])).events := by
        intro e
        rw [(Fetcher.returnDeferred_spec _ _ _ _).2.1, hev]
        simp
      have hext : ∀ (x : Option Error) (ev : Event), ev.isExtract = true →
          Event.Printf format args ∈
            (Fetcher.afterExtract env dir blobURL file files x
              (events ++ [Event.classifyFile file.Name] ++ [ev])).events →
          (Fetcher.afterExtract env dir blobURL file files x
              (events ++ [Event.classifyFile file.Name] ++ [ev])).err = none := by
        intro x ev hx hm
        obtain ⟨he, hevs, _⟩ := Fetcher.afterExtract_spec env dir blobURL file files x
          (events ++ [Event.classifyFile file.Name] ++ [ev]) u hu
        rw [he]
        cases x with
        | none => rfl
        | some e =>
          rw [hevs, hev] at hm
          simp at hm
          rw [← hm] at hx
          simp [Event.isExtract] at hx
      cases hc : classifyFile file with
      | mk res2 file1 =>
        obtain ⟨mediaType, e2⟩ := res2
        cases e2 with
        | some e =>
          simp only [Fetcher.Fetch, hd, hc] at hmem
          exact absurd hmem (hret e)
        | none =>
          by_cases hz : mediaType = "application/zip"
          · cases hst : file1.Stat with
            | mk r file2 =>
              cases r with
              | error e =>
                simp only [Fetcher.Fetch, hd, hc, hz, hst, if_true] at hmem
                exact absurd hmem (hret e)
              | ok info =>
                simp only [Fetcher.Fetch, hd, hc, hz, hst, if_true,
                  Fetcher.errAfterZipClause] at hmem ⊢
                exact hext _ _ rfl hmem
          · by_cases hg : mediaType = "application/x-gzip"
            · simp only [Fetcher.Fetch, hd, hc, hz, hg, if_true, if_false] at hmem ⊢
              exact hext _ _ rfl hmem
            · by_cases ho : mediaType = "application/octet-stream"
              · cases hi : env.IsTar file1.Name with
                | false =>
                  simp only [Fetcher.Fetch, hd, hc, hz, hg, ho, hi, if_true, if_false,
                    Bool.not_false] at hmem
                  exact absurd hmem (hret _)
                | true =>
                  simp only [Fetcher.Fetch, hd, hc, hz, hg, ho, hi, if_true, if_false,
                    Bool.not_true, Bool.false_eq_true] at hmem ⊢
                  exact hext _ _ rfl hmem
              · simp only [Fetcher.Fetch, hd, hc, hz, hg, ho, if_false] at hmem
                exact absurd hmem (hret _)

/-- The steps inside `downloadBlob` after a response of status 200 and inside
`classifyFile` hand their error on unchanged: the creation of the transient
file, the copy of the body and the seek back in `downloadBlob`; the read and the
seek in `classifyFile`. -/
theorem inner_step_errors (env : Env) (blobURL : String) (resp : Response) (reader : File)
    (hg : http.Get env blobURL = .ok resp) (hs : resp.StatusCode = 200) :
    (∀ e : Error, ioutil.TempFile env "" "" = .error e →
      (downloadBlob env blobURL).1 = .error e) ∧
    (∀ (f0 f1 : File) (n : Int) (e : Error), ioutil.TempFile env "" "" = .ok f0 →
      io.Copy f0 resp = ((n, some e), f1) → (downloadBlob env blobURL).1 = .error e) ∧
    (∀ (f0 f1 f2 : File) (n m : Int) (e : Error), ioutil.TempFile env "" "" = .ok f0 →
      io.Copy f0 resp = ((n, none), f1) → f1.Seek 0 0 = ((m, some e), f2) →
      (downloadBlob env blobURL).1 = .error e) ∧
    (∀ (bs : List Byte) (e : Error) (r2 : File), reader.Read 512 = ((bs, some e), r2) →
      classifyFile reader = (("", some e), r2)) ∧
    (∀ (bs : List Byte) (r2 r3 : File) (n : Int) (e : Error),
      reader.Read 512 = ((bs, none), r2) → r2.Seek 0 0 = ((n, some e), r3) →
      classifyFile reader = (("", some e), r3)) := by
  refine ⟨?_, ?_, ?_, ?_, ?_⟩
  · intro e ht
    simp [downloadBlob, hg, hs, ht]
  · intro f0 f1 n e ht hc
    simp [downloadBlob, hg, hs, ht, hc]
  · intro f0 f1 f2 n m e ht hc hk
    simp [downloadBlob, hg, hs, ht, hc, hk]
  · intro bs e r2 hr
    simp [classifyFile, hr]
  · intro bs r2 r3 n e hr hk
    simp [classifyFile, hr, hk]

/-- The error of a failing step other than the zip extractor is what `Fetch`
returns, unchanged: the error of the download, of the classification, of the
stat, of the gzip+tar extractor and of the tar extractor; and with a non-nil
error no success line is logged. -/
theorem Fetch_returns_other_step_errors (env : Env) (dir blobURL : String) :
    (∀ (e : Error) (events : List Event) (files : List String),
      downloadBlob env blobURL = (.error e, events, files) →
      (Fetcher.Fetch env dir blobURL).err = some e) ∧
    (∀ (file file1 : File) (events : List Event) (files : List String) (mediaType : String),
      downloadBlob env blobURL = (.ok file, events, files) →
      ((∀ e : Error, classifyFile file = ((mediaType, some e), file1) →
          (Fetcher.Fetch env dir blobURL).err = some e) ∧
       (classifyFile file = ((mediaType, none), file1) →
         (mediaType = "application/zip" →
           ∀ (e : Error) (file2 : File), file1.Stat = (.error e, file2) →
             (Fetcher.Fetch env dir blobURL).err = some e) ∧
         (mediaType = "application/x-gzip" →
           ∀ e : Error, env.ExtractTarGZ file1 dir = some e →
             (Fetcher.Fetch env dir blobURL).err = some e) ∧
         (mediaType = "application/octet-stream" → env.IsTar file1.Name = true →
           ∀ e : Error, env.ExtractTar file1 dir = some e →
             (Fetcher.Fetch env dir blobURL).err = some e)))) ∧
    (∀ e : Error, (Fetcher.Fetch env dir blobURL).err = some e →
      ∀ (format : String) (args : List String),
        Event.Printf format args ∉ (Fetcher.Fetch env dir blobURL).events) := by
  refine ⟨?_, ?_, ?_⟩
  · intro e events files hd
    simp only [Fetcher.Fetch, hd]
  · intro file file1 events files mediaType hd
    refine ⟨?_, ?_⟩
    · intro e hc
      simp only [Fetcher.Fetch, hd, hc, Fetcher.returnDeferred]
    · intro hc
      refine ⟨?_, ?_, ?_⟩
      · intro hm e file2 hst
        subst hm
        simp only [Fetcher.Fetch, hd, hc, hst, if_true, Fetcher.returnDeferred]
      · intro hm e hx
        subst hm
        simp only [Fetcher.Fetch, hd, hc, if_true, hx, Fetcher.afterExtract,
          Fetcher.returnDeferred]
        rw [if_neg (by decide)]
      · intro hm hi e hx
        subst hm
        simp only [Fetcher.Fetch, hd, hc, if_true, hi, hx, Fetcher.afterExtract,
          Fetcher.returnDeferred, Bool.not_true, Bool.false_eq_true, if_false]
        rw [if_neg (by decide), if_neg (by decide)]
  · intro e he format args hmem
    rw [Fetch_log_only_on_success env dir blobURL format args hmem] at he
    cases he

/-- Whatever the zip extractor returns, a `Fetch` that reaches it returns nil and
logs the success line. -/
theorem Fetch_ignores_zip_extractor_error (env : Env) (dir blobURL : String)
    (file file1 file2 : File) (events : List Event) (files : List String) (info : FileInfo)
    (hd : downloadBlob env blobURL = (.ok file, events, files))
    (hc : classifyFile file = (("application/zip", none), file1))
    (hst : file1.Stat = (.ok info, file2)) :
    (Fetcher.Fetch env dir blobURL).err = none ∧
    ∃ u : URL, env.urlParse blobURL = .ok u ∧
      Event.Printf "Successfully downloaded %s%s in path %q" [u.Host, u.Path, dir]
        ∈ (Fetcher.Fetch env dir blobURL).events := by
  obtain ⟨u, resp, hu, _, _, _, _, _, _, hev, _⟩ :=
    downloadBlob_ok env blobURL file events files hd
  have hF : Fetcher.Fetch env dir blobURL =
      Fetcher.afterExtract env dir blobURL file files none
        (events ++ [Event.classifyFile file.Name] ++ [Event.ExtractZip file2 info.Size dir]) := by
    simp only [Fetcher.Fetch, hd, hc, hst, if_true, Fetcher.errAfterZipClause]
  obtain ⟨he, hevs, _⟩ := Fetcher.afterExtract_spec env dir blobURL file files none
    (events ++ [Event.classifyFile file.Name] ++ [Event.ExtractZip file2 info.Size dir]) u hu
  refine ⟨by rw [hF, he], u, hu, ?_⟩
  rw [hF, hevs]
  simp

/-- C16 (the code at the failing input): the sample zip blob is downloaded with
status 200 and sniffed as `application/zip`, and the zip extractor fails with
"zip: not a valid zip file"; `Fetch` returns nil and logs the success line.  The
same failure of the gzip+tar extractor on the gzip sample is returned as it is. -/
theorem Fetch_swallows_zip_extractor_error :
    sampleEnvExtractFails.ExtractZip ⟨"/tmp/123456789", sampleZipBody, 0, []⟩ 122 "/workspace"
      = some (Error.new "zip: not a valid zip file") ∧
    Fetcher.Fetch sampleEnvExtractFails "/workspace" "https://example.com/src/app.zip"
      = { err := none,
          events := [Event.Get "https://example.com/src/app.zip",
                     Event.TempFile "/tmp/123456789",
                     Event.classifyFile "/tmp/123456789",
                     Event.ExtractZip ⟨"/tmp/123456789", sampleZipBody, 0, []⟩ 122 "/workspace",
                     Event.Printf "Successfully downloaded %s%s in path %q"
                       ["example.com", "/src/app.zip", "/workspace"],
                     Event.RemoveAll "/tmp/123456789"],
          files := [] } ∧
    (Fetcher.Fetch sampleEnvTarGZFails "/workspace" "https://example.com/src/app.tar.gz").err
      = some (Error.new "gzip: invalid header") :=
  ⟨rfl, rfl, rfl⟩

/-! ## C13, C15: bare tar blobs and the transient file -/

/-- The digits of a number, with an accumulator: the accumulator stays at the end. -/
theorem toDigitsCore_append (b : Nat) : ∀ (fuel n : Nat) (ds : List Char),
    Nat.toDigitsCore b fuel n ds = Nat.toDigitsCore b fuel n [] ++ ds := by
  intro fuel
  induction fuel with
  | zero => intro n ds; simp [Nat.toDigitsCore]
  | succ fuel ih =>
    intro n ds
    simp only [Nat.toDigitsCore]
    by_cases h : n / b = 0
    · simp [h]
    · simp only [h, if_false]
      rw [ih (n / b) (Nat.digitChar (n % b) :: ds), ih (n / b) [Nat.digitChar (n % b)]]
      simp

/-- The decimal digits of a number end with the digit of its remainder by ten. -/
theorem toDigits_ten_last (n : Nat) :
    ∃ pre : List Char, Nat.toDigits 10 n = pre ++ [Nat.digitChar (n % 10)] := by
  unfold Nat.toDigits
  simp only [Nat.toDigitsCore]
  by_cases h : n / 10 = 0
  · exact ⟨[], by simp [h]⟩
  · simp only [h, if_false]
    exact ⟨Nat.toDigitsCore 10 n (n / 10) [], toDigitsCore_append 10 n (n / 10) _⟩

/-- No decimal digit is the letter `r`. -/
theorem digitChar_ne_r (k : Nat) (h : k < 10) : Nat.digitChar k ≠ 'r' := by
  interval_cases k <;> decide

/-- A name that ends in a decimal number does not end in `.tar`. -/
theorem not_IsTar_of_decimal_name (front : String) (n : Nat) :
    archive.IsTar (front ++ Nat.repr n) = false := by
  obtain ⟨pre, hpre⟩ := toDigits_ten_last n
  cases hb : archive.IsTar (front ++ Nat.repr n) with
  | false => rfl
  | true =>
    exfalso
    unfold archive.IsTar strings.HasSuffix at hb
    rw [List.isSuffixOf_iff_suffix] at hb
    obtain ⟨t, ht⟩ := hb
    have h1 : (front ++ Nat.repr n).toList = front.toList ++ pre ++ [Nat.digitChar (n % 10)] := by
      simp [Nat.repr, hpre, String.toList, List.asString]
    rw [h1] at ht
    have h2 := congrArg List.reverse ht
    have h3 : ".tar".toList = ['.', 't', 'a', 'r'] := rfl
    rw [h3] at h2
    simp at h2
    exact digitChar_ne_r (n % 10) (Nat.mod_lt n (by decide)) h2.1.symm

/-- The two ways `Fetch` returns after a successful download: with an error and
no extractor called, or through the lines that follow the call of one
extractor; the tar extractor is called only on a name that passes `IsTar`. -/
theorem Fetch_after_download (env : Env) (dir blobURL : String) (file : File)
    (events : List Event) (files : List String)
    (hd : downloadBlob env blobURL = (.ok file, events, files)) :
    (∃ e : Error, Fetcher.Fetch env dir blobURL =
      Fetcher.returnDeferred file files (some e) (events ++ [Event.classifyFile file.Name])) ∨
    (∃ (x : Option Error) (ev : Event) (file1 : File) (mediaType : String),
      classifyFile file = ((mediaType, none), file1) ∧ ev.isExtract = true ∧
      (∀ (f : File) (d : String), ev = Event.ExtractTar f d →
        env.IsTar file1.Name = true) ∧
      Fetcher.Fetch env dir blobURL =
        Fetcher.afterExtract env dir blobURL file files x
          (events ++ [Event.classifyFile file.Name] ++ [ev])) := by
  cases hc : classifyFile file with
  | mk res2 file1 =>
    obtain ⟨mediaType, e2⟩ := res2
    cases e2 with
    | some e => exact Or.inl ⟨e, by simp only [Fetcher.Fetch, hd, hc]⟩
    | none =>
      by_cases hz : mediaType = "application/zip"
      · subst hz
        cases hst : file1.Stat with
        | mk r file2 =>
          cases r with
          | error e => exact Or.inl ⟨e, by simp only [Fetcher.Fetch, hd, hc, hst, if_true]⟩
          | ok info =>
            exact Or.inr ⟨none, Event.ExtractZip file2 info.Size dir, file1, _, rfl, rfl,
              (fun f d h => by cases h), by
                simp only [Fetcher.Fetch, hd, hc, hst, if_true, Fetcher.errAfterZipClause]⟩
      · by_cases hg : mediaType = "application/x-gzip"
        · subst hg
          refine Or.inr ⟨env.ExtractTarGZ file1 dir, Event.ExtractTarGZ file1 dir, file1, _, rfl, rfl,
            (fun f d h => by cases h), ?_⟩
          simp only [Fetcher.Fetch, hd, hc, if_true]
          rw [if_neg (by decide)]
        · by_cases ho : mediaType = "application/octet-stream"
          · subst ho
            cases hi : env.IsTar file1.Name with
            | false =>
              refine Or.inl ⟨unexpectedBlobTypeError, ?_⟩
              simp only [Fetcher.Fetch, hd, hc, hi, if_true, Bool.not_false]
              rw [if_neg (by decide), if_neg (by decide)]
            | true =>
              refine Or.inr ⟨env.ExtractTar file1 dir, Event.ExtractTar file1 dir, file1, _, rfl, rfl,
                fun _ _ _ => hi, ?_⟩
              simp only [Fetcher.Fetch, hd, hc, hi, if_true, Bool.not_true,
                Bool.false_eq_true, if_false]
              rw [if_neg (by decide), if_neg (by decide)]
          · exact Or.inl ⟨unexpectedBlobTypeError, by
              simp only [Fetcher.Fetch, hd, hc, hz, hg, ho, if_false]⟩

/-- If `IsTar` were a check of the name alone, for the suffix `.tar`, `Fetch`
would never call the tar extractor: the name it passes is that of the transient
file, which ends in a decimal number. -/
theorem Fetch_never_extracts_tar (env : Env) (dir blobURL : String)
    (hi : env.IsTar = archive.IsTar) (f : File) (d : String) :
    Event.ExtractTar f d ∉ (Fetcher.Fetch env dir blobURL).events := by
  intro hmem
  cases hd : downloadBlob env blobURL with
  | mk res rest =>
    obtain ⟨events, files⟩ := rest
    cases res with
    | error e =>
      have hev := downloadBlob_error_events env blobURL e events files hd
      simp only [Fetcher.Fetch, hd] at hmem
      rcases hev with h | ⟨name, h⟩ <;> simp [h] at hmem
    | ok file =>
      obtain ⟨u, resp, hu, _, _, _, hname, _, _, hev, _⟩ :=
        downloadBlob_ok env blobURL file events files hd
      rcases Fetch_after_download env dir blobURL file events files hd with
        ⟨e, hF⟩ | ⟨x, ev, file1, mediaType, hc, _, htar, hF⟩
      · rw [hF, (Fetcher.returnDeferred_spec _ _ _ _).2.1, hev] at hmem
        simp at hmem
      · obtain ⟨hn1, _, _, _, _⟩ := classifyFile_ok file file1 mediaType hc
        have hnot : env.IsTar file1.Name = false := by
          rw [hi, File.Name, hn1, hname]
          exact not_IsTar_of_decimal_name _ _
        rw [hF, (Fetcher.afterExtract_spec env dir blobURL file files _ _ u hu).2.1,
          hev] at hmem
        have hev2 : Event.ExtractTar f d = ev := by
          cases x <;> simpa using hmem
        rw [htar f d hev2.symm] at hnot
        cases hnot

/-- With no failing file operation, a response of status 200 whose body ends
cleanly is downloaded to the transient file, positioned at its start. -/
theorem downloadBlob_of_response (env : Env) (blobURL : String) (u : URL) (resp : Response)
    (hu : env.urlParse blobURL = .ok u) (hr : env.roundTrip blobURL = .ok resp)
    (hs : resp.StatusCode = 200) (hb : resp.BodyErr = none)
    (ht : env.tempFileErr = none) (hf : env.tempFaults = []) :
    downloadBlob env blobURL
      = (.ok ⟨env.tempDir ++ "/" ++ "" ++ Nat.repr env.tempRandom, resp.Body, 0, []⟩,
         [Event.Get blobURL,
          Event.TempFile (env.tempDir ++ "/" ++ "" ++ Nat.repr env.tempRandom)],
         [env.tempDir ++ "/" ++ "" ++ Nat.repr env.tempRandom]) := by
  have hg : http.Get env blobURL = .ok resp := by
    simp only [http.Get, hu, hr]
  simp [downloadBlob, hg, hs, ioutil.TempFile, ht, hf, io.Copy, File.nextFault, hb,
    File.Seek, File.Name]

/-- C13: bare tar is accepted.  For a blob that was downloaded with status 200
and sniffed as `application/octet-stream`, when `IsTar` accepts the file that
holds it, the only extractor called is the tar extractor, on the downloaded file
and the destination directory, and `Fetch` returns nil when that extractor
succeeds.  The check is made on the downloaded file, so the name in the URL
plays no part in it. -/
theorem Fetch_bare_tar_accepted (env : Env) (dir blobURL : String) (file file1 : File)
    (events : List Event) (files : List String)
    (hd : downloadBlob env blobURL = (.ok file, events, files))
    (hc : classifyFile file = (("application/octet-stream", none), file1))
    (hi : env.IsTar file1.Name = true) :
    (∃ resp : Response, http.Get env blobURL = .ok resp ∧ resp.StatusCode = 200 ∧
      file.data = resp.Body) ∧
    file1.name = file.name ∧ file1.data = file.data ∧
    (Fetcher.Fetch env dir blobURL).events.filter Event.isExtract
      = [Event.ExtractTar file1 dir] ∧
    (env.ExtractTar file1 dir = none → (Fetcher.Fetch env dir blobURL).err = none) := by
  obtain ⟨u, resp, hu, hg, hs, _, _, hdata, _, hev, _⟩ :=
    downloadBlob_ok env blobURL file events files hd
  obtain ⟨hn1, hd1, _, _, _⟩ := classifyFile_ok file file1 _ hc
  have hF : Fetcher.Fetch env dir blobURL =
      Fetcher.afterExtract env dir blobURL file files (env.ExtractTar file1 dir)
        (events ++ [Event.classifyFile file.Name] ++ [Event.ExtractTar file1 dir]) := by
    simp only [Fetcher.Fetch, hd, hc, hi, if_true, Bool.not_true, Bool.false_eq_true, if_false]
    rw [if_neg (by decide), if_neg (by decide)]
  obtain ⟨he, hevs, _⟩ := Fetcher.afterExtract_spec env dir blobURL file files
    (env.ExtractTar file1 dir)
    (events ++ [Event.classifyFile file.Name] ++ [Event.ExtractTar file1 dir]) u hu
  refine ⟨⟨resp, hg, hs, hdata⟩, hn1, hd1, ?_, ?_⟩
  · rw [hF, hevs, hev]
    cases env.ExtractTar file1 dir <;>
      simp [List.filter_cons, Event.isExtract]
  · intro hx
    rw [hF, he, hx]

/-- C13 (witness): the tar sample, served with status 200 from a URL that ends
in `.tar`, is sniffed as `application/octet-stream`, handed to the tar extractor
and fetched with a nil error. -/
theorem Fetch_bare_tar_accepted_witness :
    classifyFile ⟨"/tmp/123456789", sampleTarBody, 0, []⟩
      = (("application/octet-stream", none), ⟨"/tmp/123456789", sampleTarBody, 0, []⟩) ∧
    (Fetcher.Fetch sampleEnvTar "/workspace" "https://example.com/src/app.tar").events.filter
        Event.isExtract
      = [Event.ExtractTar ⟨"/tmp/123456789", sampleTarBody, 0, []⟩ "/workspace"] ∧
    (Fetcher.Fetch sampleEnvTar "/workspace" "https://example.com/src/app.tar").err = none :=
  have h := Fetch_bare_tar_accepted sampleEnvTar "/workspace" "https://example.com/src/app.tar"
    ⟨"/tmp/123456789", sampleTarBody, 0, []⟩ ⟨"/tmp/123456789", sampleTarBody, 0, []⟩
    [Event.Get "https://example.com/src/app.tar", Event.TempFile "/tmp/123456789"]
    ["/tmp/123456789"]
    (downloadBlob_of_response sampleEnvTar "https://example.com/src/app.tar"
      ⟨"example.com", "/src/app.tar"⟩ ⟨200, sampleTarBody, none⟩ rfl rfl rfl rfl rfl rfl)
    rfl rfl
  ⟨rfl, h.2.2.2.1, h.2.2.2.2 rfl⟩

/-- When `downloadBlob` succeeds, `Fetch` removes the transient file before it
returns, on each of its paths. -/
theorem Fetch_removes_file_after_download (env : Env) (dir blobURL : String) (file : File)
    (events : List Event) (files : List String)
    (hd : downloadBlob env blobURL = (.ok file, events, files)) :
    (Fetcher.Fetch env dir blobURL).files = [] := by
  obtain ⟨u, resp, hu, _, _, _, _, _, _, _, hfl⟩ :=
    downloadBlob_ok env blobURL file events files hd
  have hret : ∀ (e : Option Error) (evs : List Event),
      (Fetcher.returnDeferred file files e evs).files = [] := by
    intro e evs
    simp [Fetcher.returnDeferred, hfl, File.Name]
  rcases Fetch_after_download env dir blobURL file events files hd with
    ⟨e, hF⟩ | ⟨x, ev, file1, mediaType, _, _, _, hF⟩
  · rw [hF]; exact hret _ _
  · rw [hF]
    cases x with
    | some e => simp only [Fetcher.afterExtract]; exact hret _ _
    | none => simp only [Fetcher.afterExtract, hu]; exact hret _ _

/-- C15 (the code at the failing inputs): when the body of the 200 response
breaks off during the copy, or when the seek back to the start fails, the
transient file `/tmp/123456789` has been created, `Fetch` returns the error, no
removal has taken place and the file still exists. -/
theorem Fetch_leaves_file_when_download_fails :
    Fetcher.Fetch sampleEnv "/workspace" "https://example.com/src/broken.zip"
      = { err := some (Error.new "unexpected EOF"),
          events := [Event.Get "https://example.com/src/broken.zip",
                     Event.TempFile "/tmp/123456789"],
          files := ["/tmp/123456789"] } ∧
    Fetcher.Fetch sampleEnvSeekFails "/workspace" "https://example.com/src/app.zip"
      = { err := some (Error.new "seek: bad file descriptor"),
          events := [Event.Get "https://example.com/src/app.zip",
                     Event.TempFile "/tmp/123456789"],
          files := ["/tmp/123456789"] } ∧
    (Fetcher.Fetch sampleEnv "/workspace" "https://example.com/src/app.zip").files = [] :=
  ⟨rfl, rfl, rfl⟩

/-! ## C17 – C19: `classifyFile` -/

/-- C17 (counterexample): a stream of eleven bytes positioned at offset 3 is
classified with success and is left at offset 0, not at offset 3. -/
theorem classifyFile_moves_offset_to_start :
    classifyFile ⟨"blob", bytesOf "hello world", 3, []⟩
      = (("application/octet-stream", none), ⟨"blob", bytesOf "hello world", 0, []⟩) ∧
    (classifyFile ⟨"blob", bytesOf "hello world", 3, []⟩).2.offset ≠ 3 := by
  refine ⟨rfl, ?_⟩
  decide

/-- C17 (amended): a successful `classifyFile` leaves the stream positioned at
offset 0, the start of the stream, whatever its position before the call; that
is the position before the call exactly when the stream was at its start. -/
theorem classifyFile_offset_after (reader r2 : File) (mediaType : String)
    (h : classifyFile reader = ((mediaType, none), r2)) :
    r2.offset = 0 ∧ (r2.offset = reader.offset ↔ reader.offset = 0) := by
  obtain ⟨_, _, ho, _, _⟩ := classifyFile_ok reader r2 mediaType h
  refine ⟨ho, ?_⟩
  rw [ho]
  exact eq_comm

/-- C17 (witness): the amended statement at the zip sample, positioned at its
start. -/
theorem classifyFile_offset_after_witness :
    (classifyFile ⟨"/tmp/123456789", sampleZipBody, 0, []⟩).2.offset = 0 :=
  (classifyFile_offset_after ⟨"/tmp/123456789", sampleZipBody, 0, []⟩
    (classifyFile ⟨"/tmp/123456789", sampleZipBody, 0, []⟩).2 "application/zip" rfl).1

/-- C18: for a non-empty stream positioned at its start, after a successful
`classifyFile` the bytes of the stream are unchanged and reading it to its end
gives all of them, in order; and on such a stream `classifyFile` does succeed
when no operation of the stream fails. -/
theorem classifyFile_nondestructive (reader : File) (hne : reader.data ≠ [])
    (hstart : reader.offset = 0) :
    (∀ (mediaType : String) (r2 : File), classifyFile reader = ((mediaType, none), r2) →
      r2.data = reader.data ∧ r2.rest = reader.data) ∧
    (reader.faults = [] → ∃ mediaType, classifyFile reader = ((mediaType, none), reader)) := by
  constructor
  · intro mediaType r2 h
    obtain ⟨_, hd, ho, _, _⟩ := classifyFile_ok reader r2 mediaType h
    exact ⟨hd, by rw [File.rest, ho, hd, List.drop_zero]⟩
  · intro hf
    have hlen : ¬ reader.data.length ≤ 0 := by
      intro h
      exact hne (List.length_eq_zero.mp (Nat.le_zero.mp h))
    obtain ⟨name, data, offset, faults⟩ := reader
    simp only at hstart hf hlen
    subst hstart
    subst hf
    refine ⟨(classifyFile ⟨name, data, 0, []⟩).1.1, ?_⟩
    simp [classifyFile, File.Read, File.Seek, File.nextFault, hlen]

/-- C18 (witness): classifying the zip sample, then reading the stream to its
end, gives the bytes of the sample. -/
theorem classifyFile_nondestructive_witness :
    classifyFile ⟨"/tmp/123456789", sampleZipBody, 0, []⟩
      = (("application/zip", none), ⟨"/tmp/123456789", sampleZipBody, 0, []⟩) ∧
    (classifyFile ⟨"/tmp/123456789", sampleZipBody, 0, []⟩).2.rest = sampleZipBody :=
  ⟨rfl,
   ((classifyFile_nondestructive ⟨"/tmp/123456789", sampleZipBody, 0, []⟩ (by decide) rfl).1
      "application/zip" (classifyFile ⟨"/tmp/123456789", sampleZipBody, 0, []⟩).2 rfl).2⟩

/-- When at least 512 bytes remain in the stream, a successful `classifyFile`
returns the content type of the 512 bytes it read. -/
theorem classifyFile_of_full_buffer (reader r2 : File) (mediaType : String)
    (h : classifyFile reader = ((mediaType, none), r2))
    (hlen : reader.offset + 512 ≤ reader.data.length) :
    mediaType = http.DetectContentType ((reader.data.drop reader.offset).take 512) := by
  obtain ⟨_, _, _, _, hm⟩ := classifyFile_ok reader r2 mediaType h
  have hl : ((reader.data.drop reader.offset).take 512).length = 512 := by
    simp only [List.length_take, List.length_drop]
    omega
  rw [hm, hl]
  simp

/-- C19 (the code at the failing input): on the stream of the five bytes
`hello`, the read gives these five bytes, which the sniffing rules classify as
plain text; `classifyFile` sniffs the whole buffer of 512 bytes, five bytes and
507 zero bytes, and returns `application/octet-stream`. -/
theorem classifyFile_short_text_is_octet_stream :
    (File.Read ⟨"notes.txt", bytesOf "hello", 0, []⟩ 512).1 = (bytesOf "hello", none) ∧
    http.DetectContentType (bytesOf "hello") = "text/plain; charset=utf-8" ∧
    http.DetectContentType (bytesOf "hello" ++ List.replicate 507 0)
      = "application/octet-stream" ∧
    classifyFile ⟨"notes.txt", bytesOf "hello", 0, []⟩
      = (("application/octet-stream", none), ⟨"notes.txt", bytesOf "hello", 0, []⟩) :=
  ⟨rfl, rfl, rfl, rfl⟩

/-! ## C20: `BuilderRecord.DeepCopy` -/

/-- Copying a slice into a new slice of the same length gives the slice back. -/
theorem Go.copy_make {α : Type} (zero : α) (l : List α) :
    Go.copy (Go.make zero l.length) l = l := by
  simp [Go.copy, Go.make]

/-- The copy that deepcopy-gen emits for an order entry is equal to the entry. -/
theorem OrderEntry.generatedCopy_eq (inp out : OrderEntry) :
    inp.generatedCopy out = inp := by
  obtain ⟨g⟩ := inp
  cases g with
  | none => rfl
  | some g => simp [OrderEntry.generatedCopy, Go.copy_make]

/-- The loop over the order entries: at an index that is visited, once, the copy
of the element of `inp` into the element of `out`; at any other index the
element `out` had. -/
theorem BuilderRecord.copyOrder_getElem? (f : OrderEntry → OrderEntry → OrderEntry)
    (inp : List OrderEntry) :
    ∀ (idxs : List Nat) (out : List OrderEntry), idxs.Nodup → ∀ j : Nat,
      (BuilderRecord.copyOrder f inp out idxs)[j]? =
        if j ∈ idxs then
          (match inp[j]?, out[j]? with
           | some a, some b => some (f a b)
           | _, _ => out[j]?)
        else out[j]? := by
  intro idxs
  induction idxs with
  | nil => intro out _ j; simp [BuilderRecord.copyOrder]
  | cons i rest ih =>
    intro out hnd j
    have hi : i ∉ rest := (List.nodup_cons.mp hnd).1
    have hrest : rest.Nodup := (List.nodup_cons.mp hnd).2
    unfold BuilderRecord.copyOrder
    simp only [List.get?_eq_getElem?]
    cases ha : inp[i]? with
    | none =>
      simp only
      rw [ih out hrest j]
      by_cases hj : j ∈ rest
      · simp [hj]
      · by_cases hij : j = i
        · subst hij; simp [hj, ha]
        · simp [hj, hij]
    | some a =>
      cases hb : out[i]? with
      | none =>
        simp only
        rw [ih out hrest j]
        by_cases hj : j ∈ rest
        · simp [hj]
        · by_cases hij : j = i
          · subst hij; simp [hj, ha, hb]
          · simp [hj, hij]
      | some b =>
        simp only
        rw [ih (out.set i (f a b)) hrest j]
        have hlt : i < out.length := (List.getElem?_eq_some_iff.mp hb).1
        by_cases hij : j = i
        · subst hij
          simp [hi, List.getElem?_set, hlt, ha, hb]
        · have hij2 : ¬ i = j := fun h => hij h.symm
          by_cases hj : j ∈ rest
          · simp [hj, hij, List.getElem?_set, hij2]
          · simp [hj, hij, List.getElem?_set, hij2]

/-- The loop over all the indices of `inp`, from a slice of zero values of the
same length, gives the copies of the elements of `inp`, in order. -/
theorem BuilderRecord.copyOrder_all (f : OrderEntry → OrderEntry → OrderEntry)
    (inp : List OrderEntry) :
    BuilderRecord.copyOrder f inp (Go.make OrderEntry.zero inp.length) (List.range inp.length)
      = inp.map (fun e => f e OrderEntry.zero) := by
  apply List.ext_getElem?
  intro j
  rw [BuilderRecord.copyOrder_getElem? f inp _ _ (List.nodup_range _) j]
  by_cases hj : j < inp.length
  · simp [hj, Go.make, List.getElem?_eq_getElem hj]
  · have h1 : inp[j]? = none := List.getElem?_eq_none (by omega)
    simp [hj, Go.make, h1]
    omega

/-- Copying the elements of a slice into a new backing array of its length
leaves the array with exactly these elements. -/
theorem Go.copy_into_made {α : Type} (zero : α) (n : Nat) (l : List α) (hn : n ≤ l.length) :
    Go.copy ((Go.make zero n).take n) (l.take n) ++ (Go.make zero n).drop n = l.take n := by
  have h1 : (l.take n).length = n := by simp [hn]
  simp [Go.copy, Go.make, h1]

/-- The loop over the elements of a slice, into a new backing array of its
length, leaves the array with the copies of these elements, in order. -/
theorem BuilderRecord.copyOrder_into_made (f : OrderEntry → OrderEntry → OrderEntry)
    (n : Nat) (l : List OrderEntry) (hn : n ≤ l.length) :
    BuilderRecord.copyOrder f (l.take n) ((Go.make OrderEntry.zero n).take n)
        (List.range n) ++ (Go.make OrderEntry.zero n).drop n
      = (l.take n).map (fun e => f e OrderEntry.zero) := by
  have h1 : (l.take n).length = n := by simp [hn]
  have h2 : (Go.make OrderEntry.zero n).take n = Go.make OrderEntry.zero (l.take n).length := by
    simp [Go.make, h1]
  have h3 : (Go.make OrderEntry.zero n).drop n = [] := by simp [Go.make]
  have h4 : List.range n = List.range (l.take n).length := by rw [h1]
  rw [h2, h3, h4, BuilderRecord.copyOrder_all, List.append_nil]

/-- The heap after `DeepCopy` of a valid receiver: the pointer returned is the
address that was free; nothing allocated before is changed; the backing arrays
of the copy are new; and the copy, read as a value, has the fields of the
receiver, its order entries being the copies of those of the receiver. -/
theorem BuilderRecord.DeepCopy_heap (f : OrderEntry → OrderEntry → OrderEntry)
    (h : Heap) (a : Addr) (hv : h.valid a = true) :
    (BuilderRecord.DeepCopy f h (some a)).1 = some h.next ∧
    a < h.next ∧
    (∀ x, x < h.next →
      (BuilderRecord.DeepCopy f h (some a)).2.record x = h.record x ∧
      (BuilderRecord.DeepCopy f h (some a)).2.buildpackArray x = h.buildpackArray x ∧
      (BuilderRecord.DeepCopy f h (some a)).2.orderArray x = h.orderArray x) ∧
    (∀ s, ((BuilderRecord.DeepCopy f h (some a)).2.record h.next).Buildpacks = some s →
      h.next ≤ s.array) ∧
    (∀ s, ((BuilderRecord.DeepCopy f h (some a)).2.record h.next).Order = some s →
      h.next ≤ s.array) ∧
    ((BuilderRecord.DeepCopy f h (some a)).2.read h.next).Image = (h.read a).Image ∧
    ((BuilderRecord.DeepCopy f h (some a)).2.read h.next).Stack = (h.read a).Stack ∧
    ((BuilderRecord.DeepCopy f h (some a)).2.read h.next).Buildpacks
      = (h.read a).Buildpacks ∧
    ((BuilderRecord.DeepCopy f h (some a)).2.read h.next).Order
      = (h.read a).Order.map (List.map (fun e => f e OrderEntry.zero)) := by
  simp only [Heap.valid, Bool.and_eq_true, decide_eq_true_eq] at hv
  obtain ⟨⟨ha, hb⟩, ho⟩ := hv
  have hne : ¬ a = h.next := Nat.ne_of_lt ha
  have hfr : ∀ x, x < h.next → ¬ x = h.next ∧ ¬ x = h.next + 1 ∧ ¬ x = h.next + 1 + 1 :=
    fun x hx => ⟨Nat.ne_of_lt hx, Nat.ne_of_lt (Nat.lt_succ_of_lt hx),
      Nat.ne_of_lt (Nat.lt_succ_of_lt (Nat.lt_succ_of_lt hx))⟩
  refine ⟨rfl, ha, ?_⟩
  cases hB : (h.record a).Buildpacks with
  | none =>
    cases hO : (h.record a).Order with
    | none =>
      simp [BuilderRecord.DeepCopy, BuilderRecord.DeepCopyInto, BuilderRecord.copyBuildpacks,
        BuilderRecord.copyOrderSlice, Heap.newRecord, Heap.setRecord, Heap.read, hne, hB, hO]
      intro x hx
      simp [(hfr x hx).1]
    | some t =>
      rw [hO] at ho
      simp only [Bool.and_eq_true, decide_eq_true_eq] at ho
      obtain ⟨hta, htl⟩ := ho
      obtain ⟨ht1, ht2, ht3⟩ := hfr t.array hta
      simp [BuilderRecord.DeepCopy, BuilderRecord.DeepCopyInto, BuilderRecord.copyBuildpacks,
        BuilderRecord.copyOrderSlice, Heap.newRecord, Heap.setRecord, Heap.read, hne, hB, hO,
        Heap.makeOrder, Heap.setOrderArray, Heap.order, ht1, ht2, ht3, Nat.min_eq_left htl]
      refine ⟨fun x hx => ?_, ?_⟩
      · obtain ⟨hx1, hx2, _⟩ := hfr x hx
        simp [hx1, hx2]
      · rw [BuilderRecord.copyOrder_into_made f t.len _ htl]
        simp [List.map_take]
  | some s =>
    rw [hB] at hb
    simp only [Bool.and_eq_true, decide_eq_true_eq] at hb
    obtain ⟨hsa, hsl⟩ := hb
    obtain ⟨hs1, hs2, hs3⟩ := hfr s.array hsa
    cases hO : (h.record a).Order with
    | none =>
      simp [BuilderRecord.DeepCopy, BuilderRecord.DeepCopyInto, BuilderRecord.copyBuildpacks,
        BuilderRecord.copyOrderSlice, Heap.newRecord, Heap.setRecord, Heap.read, hne, hB, hO,
        Heap.makeBuildpacks, Heap.setBuildpackArray, Heap.buildpacks, hs1, hs2, hs3,
        Nat.min_eq_left hsl]
      refine ⟨fun x hx => ?_, ?_⟩
      · obtain ⟨hx1, hx2, _⟩ := hfr x hx
        simp [hx1, hx2]
      · rw [Go.copy_into_made BuildpackMetadata.zero s.len _ hsl]
        simp
    | some t =>
      rw [hO] at ho
      simp only [Bool.and_eq_true, decide_eq_true_eq] at ho
      obtain ⟨hta, htl⟩ := ho
      obtain ⟨ht1, ht2, ht3⟩ := hfr t.array hta
      simp [BuilderRecord.DeepCopy, BuilderRecord.DeepCopyInto, BuilderRecord.copyBuildpacks,
        BuilderRecord.copyOrderSlice, Heap.newRecord, Heap.setRecord, Heap.read, hne, hB, hO,
        Heap.makeBuildpacks, Heap.setBuildpackArray, Heap.buildpacks, hs1, hs2, hs3,
        Heap.makeOrder, Heap.setOrderArray, Heap.order, ht1, ht2, ht3,
        Nat.min_eq_left hsl, Nat.min_eq_left htl]
      refine ⟨fun x hx => ?_, ?_, ?_, ?_⟩
      · obtain ⟨hx1, hx2, hx3⟩ := hfr x hx
        simp [hx1, hx2, hx3]
      · exact Nat.le_succ_of_le (Nat.le_succ _)
      · rw [Go.copy_into_made BuildpackMetadata.zero s.len _ hsl]
        simp
      · rw [BuilderRecord.copyOrder_into_made f t.len _ htl]
        simp [List.map_take]

/-- A record allocated before the call reads the same after it. -/
theorem BuilderRecord.DeepCopy_frame_read (f : OrderEntry → OrderEntry → OrderEntry)
    (h : Heap) (a : Addr) (hv : h.valid a = true) :
    (BuilderRecord.DeepCopy f h (some a)).2.read a = h.read a := by
  obtain ⟨_, ha, hfr, _⟩ := BuilderRecord.DeepCopy_heap f h a hv
  simp only [Heap.valid, Bool.and_eq_true, decide_eq_true_eq] at hv
  obtain ⟨⟨_, hb⟩, ho⟩ := hv
  have hrec := (hfr a ha).1
  have hB : (h.record a).Buildpacks.map (BuilderRecord.DeepCopy f h (some a)).2.buildpacks
      = (h.record a).Buildpacks.map h.buildpacks := by
    cases hB : (h.record a).Buildpacks with
    | none => rfl
    | some s =>
      rw [hB] at hb
      simp only [Bool.and_eq_true, decide_eq_true_eq] at hb
      simp [Heap.buildpacks, (hfr s.array hb.1).2.1]
  have hO : (h.record a).Order.map (BuilderRecord.DeepCopy f h (some a)).2.order
      = (h.record a).Order.map h.order := by
    cases hO : (h.record a).Order with
    | none => rfl
    | some t =>
      rw [hO] at ho
      simp only [Bool.and_eq_true, decide_eq_true_eq] at ho
      simp [Heap.order, (hfr t.array ho.1).2.2]
  simp only [Heap.read, hrec, hB, hO]

/-- C20: `BuilderRecord.DeepCopy` returns nil for a nil receiver.  For a receiver
at address `a` it returns the address of a new record: an address that was not
allocated before, so not `a`, with new backing arrays for its slices, while the
receiver and everything allocated before stay as they were.  Read as a value the
new record has the stack of the receiver, its buildpacks in the same order with
duplicates kept, and the copies of its order entries in the same order; a nil
`Buildpacks` or `Order` stays nil and an empty non-nil one stays empty and
non-nil; and when the copy of an order entry is equal to the entry, the new
record is equal to the receiver. -/
theorem BuilderRecord.DeepCopy_new_and_equal (f : OrderEntry → OrderEntry → OrderEntry)
    (h : Heap) (a : Addr) (hv : h.valid a = true) :
    BuilderRecord.DeepCopy f h none = (none, h) ∧
    ∃ (b : Addr) (h2 : Heap), BuilderRecord.DeepCopy f h (some a) = (some b, h2) ∧
      (h.next ≤ b ∧ b ≠ a) ∧
      (h2.read a = h.read a ∧
       ∀ x, x < h.next → h2.record x = h.record x ∧
         h2.buildpackArray x = h.buildpackArray x ∧ h2.orderArray x = h.orderArray x) ∧
      ((∀ s, (h2.record b).Buildpacks = some s → h.next ≤ s.array) ∧
       (∀ s, (h2.record b).Order = some s → h.next ≤ s.array)) ∧
      (h2.read b).Stack = (h.read a).Stack ∧
      (h2.read b).Buildpacks = (h.read a).Buildpacks ∧
      (h2.read b).Order = (h.read a).Order.map (List.map (fun e => f e OrderEntry.zero)) ∧
      ((h.read a).Buildpacks = none → (h2.read b).Buildpacks = none) ∧
      ((h.read a).Buildpacks = some [] → (h2.read b).Buildpacks = some []) ∧
      ((h.read a).Order = none → (h2.read b).Order = none) ∧
      ((h.read a).Order = some [] → (h2.read b).Order = some []) ∧
      ((∀ e, f e OrderEntry.zero = e) → h2.read b = h.read a) := by
  obtain ⟨h1, ha, hfr, hnb, hno, hi, hs, hbp, hord⟩ := BuilderRecord.DeepCopy_heap f h a hv
  have hread := BuilderRecord.DeepCopy_frame_read f h a hv
  refine ⟨rfl, h.next, (BuilderRecord.DeepCopy f h (some a)).2, ?_, ⟨Nat.le_refl _, ?_⟩,
    ⟨hread, hfr⟩, ⟨hnb, hno⟩, hs, hbp, hord, ?_, ?_, ?_, ?_, ?_⟩
  · exact Prod.ext h1 rfl
  · exact fun e => Nat.lt_irrefl a (e ▸ ha)
  · intro hn; rw [hbp, hn]
  · intro hn; rw [hbp, hn]
  · intro hn; rw [hord, hn]; rfl
  · intro hn; rw [hord, hn]; rfl
  · intro hf
    have hmap : (fun e => f e OrderEntry.zero) = id := funext hf
    have hord2 : ((BuilderRecord.DeepCopy f h (some a)).2.read h.next).Order
        = (h.read a).Order := by
      rw [hord, hmap]
      cases (h.read a).Order <;> simp
    cases hr : (BuilderRecord.DeepCopy f h (some a)).2.read h.next with
    | mk i s b o =>
      rw [hr] at hi hs hbp hord2
      simp only at hi hs hbp hord2
      subst hi hs hbp hord2
      rfl

/-- C20 (witness): the copy of the sample record at address 0, which lists one
buildpack twice, is a new record at address 5 with its arrays at addresses 6 and
7, equal to the sample record; the copy of the record at address 3 keeps the nil
`Buildpacks` and the empty `Order`. -/
theorem BuilderRecord.DeepCopy_new_and_equal_witness :
    (BuilderRecord.DeepCopy OrderEntry.generatedCopy sampleHeap (some 0)).1 = some 5 ∧
    (BuilderRecord.DeepCopy OrderEntry.generatedCopy sampleHeap (some 0)).2.record 5
      = { Image := "myregistry.io/builder@sha256:aa",
          Stack := { RunImage := "myregistry.io/run@sha256:bb",
                     ID := "io.buildpacks.stacks.bionic" },
          Buildpacks := some ⟨6, 3⟩, Order := some ⟨7, 3⟩ } ∧
    (BuilderRecord.DeepCopy OrderEntry.generatedCopy sampleHeap (some 0)).2.read 5
      = sampleBuilderRecord ∧
    ((BuilderRecord.DeepCopy OrderEntry.generatedCopy sampleHeap (some 3)).2.read 5).Buildpacks
      = none ∧
    ((BuilderRecord.DeepCopy OrderEntry.generatedCopy sampleHeap (some 3)).2.read 5).Order
      = some [] ∧
    ∃ (b : Addr) (h2 : Heap),
      BuilderRecord.DeepCopy OrderEntry.generatedCopy sampleHeap (some 0) = (some b, h2) ∧
      5 ≤ b ∧ h2.read b = sampleHeap.read 0 :=
  have hw := (BuilderRecord.DeepCopy_new_and_equal OrderEntry.generatedCopy sampleHeap 0 rfl).2
  ⟨rfl, rfl, rfl, rfl, rfl,
   hw.elim fun b hb => hb.elim fun h2 hh =>
     ⟨b, h2, hh.1, hh.2.1.1,
      hh.2.2.2.2.2.2.2.2.2.2.2 (fun e => OrderEntry.generatedCopy_eq e OrderEntry.zero)⟩⟩


/-! ## C21: the empty blob -/

/-- C21: when the response has status 200 and an empty body, the blob is
downloaded to an empty transient file; when the read on that file does not fail
for another reason, `classifyFile` returns the empty media type with the read
error `io.EOF`, and `Fetch` returns `io.EOF`, which is not the fixed
unexpected-blob-type error, without calling an extractor. -/
theorem Fetch_empty_body (env : Env) (dir blobURL : String) (resp : Response) (file : File)
    (events : List Event) (files : List String)
    (hg : http.Get env blobURL = .ok resp) (hbody : resp.Body = [])
    (hd : downloadBlob env blobURL = (.ok file, events, files))
    (hfault : file.nextFault.1 = none) :
    file.data = [] ∧
    classifyFile file = (("", some io.EOF), file.nextFault.2) ∧
    (Fetcher.Fetch env dir blobURL).err = some io.EOF ∧
    io.EOF ≠ unexpectedBlobTypeError ∧
    (Fetcher.Fetch env dir blobURL).events.filter Event.isExtract = [] := by
  obtain ⟨u, resp2, _, hg2, _, _, _, hdata, hoff, hev, _⟩ :=
    downloadBlob_ok env blobURL file events files hd
  rw [hg] at hg2
  cases hg2
  have hempty : file.data = [] := by rw [hdata, hbody]
  obtain ⟨_, hd2, ho2⟩ := File.nextFault_frame file
  have hc : classifyFile file = (("", some io.EOF), file.nextFault.2) := by
    cases hf : file.nextFault with
    | mk o g =>
      rw [hf] at hfault hd2 ho2
      simp only at hfault hd2 ho2
      subst hfault
      have hlen : g.data.length ≤ g.offset := by rw [hd2, hempty]; simp
      simp [classifyFile, File.Read, hf, hlen]
  have hF : Fetcher.Fetch env dir blobURL
      = Fetcher.returnDeferred file files (some io.EOF)
          (events ++ [Event.classifyFile file.Name]) := by
    simp only [Fetcher.Fetch, hd, hc]
  refine ⟨hempty, hc, by rw [hF]; rfl, by decide, ?_⟩
  rw [hF, (Fetcher.returnDeferred_spec _ _ _ _).2.1, hev]
  simp [List.filter_cons, Event.isExtract]

/-- C21 (witness): the fetch of a URL that the sample server answers with status
200 and an empty body. -/
theorem Fetch_empty_body_witness :
    classifyFile ⟨"/tmp/123456789", [], 0, []⟩
      = (("", some (Error.new "EOF")), ⟨"/tmp/123456789", [], 0, []⟩) ∧
    (Fetcher.Fetch sampleEnvEmptyBody "/workspace" "https://example.com/src/notes.txt").err
      = some (Error.new "EOF") ∧
    (Fetcher.Fetch sampleEnvEmptyBody "/workspace"
        "https://example.com/src/notes.txt").events.filter Event.isExtract = [] :=
  have h := Fetch_empty_body sampleEnvEmptyBody "/workspace" "https://example.com/src/notes.txt"
    ⟨200, [], none⟩ ⟨"/tmp/123456789", [], 0, []⟩
    [Event.Get "https://example.com/src/notes.txt", Event.TempFile "/tmp/123456789"]
    ["/tmp/123456789"] rfl rfl rfl rfl
  ⟨h.2.1, h.2.2.1, h.2.2.2.2⟩

end Kpack
